import Mathlib

/-!
Verification of the legal-document analysis pipeline
(`legal_analyzer/agent.py`): text normalization, entity/clause
extraction, risk assessment, report rendering and two-document
comparison.  Python dict results are modelled as a `PipeResult` sum
type; Python strings are `String`/`List Char`; the `re` pattern
matching used by the extractor is modelled by a small backtracking
matcher with Python's leftmost / alternative-order / lazy-vs-greedy
preferences.  Wall-clock timestamp fields of the Python results are
omitted (the spec treats the clock as an injected collaborator and no
verified property mentions timestamps).
-/

namespace LegalAnalyzer

/-- Python `str.isspace` / `\s` (ASCII and Latin-1 range relevant here):
tab, LF, VT, FF, CR, space, FS/GS/RS/US, NEL, NBSP. -/
def pyIsSpace (c : Char) : Bool :=
  c == ' ' || c == '\t' || c == '\n' || c == '\x0b' || c == '\x0c' || c == '\r' ||
    c == '\x1c' || c == '\x1d' || c == '\x1e' || c == '\x1f' || c == '\x85' || c == '\xa0'

/-- Characters removed by the cleaner's second substitution,
`[\x00-\x1f\x7f-\x9f]`. -/
def isCtrlChar (c : Char) : Bool :=
  c.toNat ≤ 0x1f || (0x7f ≤ c.toNat && c.toNat ≤ 0x9f)

/-- Python `str.strip()` on a character list. -/
def pyStrip (l : List Char) : List Char :=
  ((l.dropWhile pyIsSpace).reverse.dropWhile pyIsSpace).reverse

/-- Worker for whitespace-run collapsing; the flag records whether the
previous character was part of a whitespace run. -/
def collapseGo : Bool → List Char → List Char
  | _, [] => []
  | prevSp, c :: rest =>
    if pyIsSpace c then
      if prevSp then collapseGo true rest else ' ' :: collapseGo true rest
    else c :: collapseGo false rest

/-- Python `re.sub(r'\s+', ' ', s)`: every maximal whitespace run becomes
a single space. -/
def collapseWs (l : List Char) : List Char := collapseGo false l

/-- Python `re.sub(r'[\x00-\x1f\x7f-\x9f]', '', s)`. -/
def removeCtrl (l : List Char) : List Char := l.filter (fun c => !isCtrlChar c)

/-- Worker for `countWords`; the flag records whether we are inside a word. -/
def countWordsGo : Bool → List Char → Nat
  | _, [] => 0
  | inw, c :: rest =>
    if pyIsSpace c then countWordsGo false rest
    else (if inw then 0 else 1) + countWordsGo true rest

/-- Python `len(s.split())`: the number of maximal non-whitespace runs. -/
def countWords (l : List Char) : Nat := countWordsGo false l

/-- Lower-case a character list (Python `str.lower` for ASCII). -/
def lowerL (l : List Char) : List Char := l.map Char.toLower

/-- `leadsWith n h` is true when `n` is a leading segment of `h`. -/
def leadsWith : List Char → List Char → Bool
  | [], _ => true
  | _ :: _, [] => false
  | n :: ns, c :: cs => n == c && leadsWith ns cs

/-- `containsSub n h` is true when `n` occurs contiguously inside `h`
(Python `n in h`). -/
def containsSub : List Char → List Char → Bool
  | n, [] => leadsWith n []
  | n, c :: h => leadsWith n (c :: h) || containsSub n h

/-- String-level substring test, Python `n in h`. -/
def strContains (n h : String) : Bool := containsSub n.data h.data

theorem leadsWith_iff (n h : List Char) :
    leadsWith n h = true ↔ ∃ t, h = n ++ t := by
  induction n generalizing h with
  | nil => simp [leadsWith]
  | cons a ns ih =>
    cases h with
    | nil => simp [leadsWith]
    | cons c cs =>
      simp only [leadsWith, Bool.and_eq_true, beq_iff_eq, ih, List.cons_append,
        List.cons.injEq]
      constructor
      · rintro ⟨rfl, t, rfl⟩; exact ⟨t, rfl, rfl⟩
      · rintro ⟨t, rfl, rfl⟩; exact ⟨rfl, t, rfl⟩

theorem containsSub_iff (n h : List Char) :
    containsSub n h = true ↔ ∃ s t, h = s ++ n ++ t := by
  induction h with
  | nil =>
    simp only [containsSub, leadsWith_iff]
    constructor
    · rintro ⟨t, ht⟩
      exact ⟨[], t, by simpa using ht⟩
    · rintro ⟨s, t, hst⟩
      have hs : s = [] := by
        cases s with
        | nil => rfl
        | cons a as => simp at hst
      subst hs
      exact ⟨t, by simpa using hst⟩
  | cons c cs ih =>
    simp only [containsSub, Bool.or_eq_true, leadsWith_iff, ih]
    constructor
    · rintro (⟨t, ht⟩ | ⟨s, t, hst⟩)
      · exact ⟨[], t, by simpa using ht⟩
      · exact ⟨c :: s, t, by simp [hst]⟩
    · rintro ⟨s, t, hst⟩
      cases s with
      | nil => exact Or.inl ⟨t, by simpa using hst⟩
      | cons a as =>
        simp only [List.cons_append, List.cons.injEq] at hst
        exact Or.inr ⟨as, t, hst.2⟩

theorem containsSub_of_parts (n s t : List Char) :
    containsSub n (s ++ n ++ t) = true :=
  (containsSub_iff n _).mpr ⟨s, t, rfl⟩

theorem containsSub_append_right {n h : List Char} (s : List Char)
    (hc : containsSub n h = true) : containsSub n (s ++ h) = true := by
  rcases (containsSub_iff n h).mp hc with ⟨a, b, rfl⟩
  have : s ++ (a ++ n ++ b) = (s ++ a) ++ n ++ b := by simp
  rw [this]
  exact containsSub_of_parts n _ _

theorem containsSub_append_left {n h : List Char} (t : List Char)
    (hc : containsSub n h = true) : containsSub n (h ++ t) = true := by
  rcases (containsSub_iff n h).mp hc with ⟨a, b, rfl⟩
  have : (a ++ n ++ b) ++ t = a ++ n ++ (b ++ t) := by simp
  rw [this]
  exact containsSub_of_parts n _ _

theorem containsSub_map {n h : List Char} (f : Char → Char)
    (hc : containsSub n h = true) :
    containsSub (n.map f) (h.map f) = true := by
  rcases (containsSub_iff n h).mp hc with ⟨a, b, rfl⟩
  simp only [List.map_append]
  exact containsSub_of_parts _ _ _

theorem strContains_append_left {n a : String} (b : String)
    (hc : strContains n a = true) : strContains n (a ++ b) = true := by
  unfold strContains at *
  rw [String.data_append]
  exact containsSub_append_left _ hc

theorem strContains_append_right {n b : String} (a : String)
    (hc : strContains n b = true) : strContains n (a ++ b) = true := by
  unfold strContains at *
  rw [String.data_append]
  exact containsSub_append_right _ hc

/-! ### A small backtracking pattern matcher

Model of the `re` features used by `identify_key_clauses`
(`re.IGNORECASE` throughout): character classes, ordered alternation,
greedy and lazy repetition, one capturing group, and the `\b` word
boundary.  Backtracking with ordered choice reproduces Python's
leftmost / first-alternative / lazy-shortest match preferences. -/

/-- Regular-expression syntax.  `star` is greedy `*`, `starL` is lazy `*?`,
`grp` is the (single) capturing group, `wordB` is `\b`. -/
inductive Rx where
  | eps : Rx
  | cls (p : Char → Bool) : Rx
  | cat (a b : Rx) : Rx
  | alt (a b : Rx) : Rx
  | star (b : Rx) : Rx
  | starL (b : Rx) : Rx
  | grp (r : Rx) : Rx
  | wordB : Rx

/-- Python `\w` for `\b` purposes: alphanumeric or underscore. -/
def isWordChar (c : Char) : Bool := c.isAlphanum || c == '_'

/-- `\b` holds when exactly one of the adjacent characters is a word
character (`p` is the character before the position, if any). -/
def atWordBoundary (p : Option Char) (rest : List Char) : Bool :=
  let l := match p with | some c => isWordChar c | none => false
  let r := match rest with | c :: _ => isWordChar c | [] => false
  l != r

/-- Left-biased choice for backtracking. -/
def orElseO {α : Type} : Option α → Option α → Option α
  | some x, _ => some x
  | none, b => b

/-- Fuel-bounded CPS backtracking matcher.  Arguments: fuel, pattern,
previous character (for `\b`), remaining input, current group-1 capture,
continuation.  Every recursive call spends one unit of fuel, so the
function is structurally recursive; `rxFuel` below always supplies
enough fuel for the patterns and inputs in this development. -/
def mrun {α : Type} : Nat → Rx → Option Char → List Char → Option (List Char) →
    (Option Char → List Char → Option (List Char) → Option α) → Option α
  | 0, _, _, _, _, _ => none
  | _ + 1, Rx.eps, p, rest, g, k => k p rest g
  | _ + 1, Rx.cls t, _, rest, g, k =>
    match rest with
    | [] => none
    | c :: rs => if t c then k (some c) rs g else none
  | f + 1, Rx.cat a b, p, rest, g, k =>
    mrun f a p rest g (fun p2 r2 g2 => mrun f b p2 r2 g2 k)
  | f + 1, Rx.alt a b, p, rest, g, k =>
    orElseO (mrun f a p rest g k) (mrun f b p rest g k)
  | f + 1, Rx.star b, p, rest, g, k =>
    orElseO
      (mrun f b p rest g (fun p2 r2 g2 =>
        if r2.length < rest.length then mrun f (Rx.star b) p2 r2 g2 k else none))
      (k p rest g)
  | f + 1, Rx.starL b, p, rest, g, k =>
    orElseO (k p rest g)
      (mrun f b p rest g (fun p2 r2 g2 =>
        if r2.length < rest.length then mrun f (Rx.starL b) p2 r2 g2 k else none))
  | f + 1, Rx.grp r, p, rest, g, k =>
    mrun f r p rest g (fun p2 r2 _ =>
      k p2 r2 (some (rest.take (rest.length - r2.length))))
  | _ + 1, Rx.wordB, p, rest, g, k =>
    if atWordBoundary p rest then k p rest g else none

/-- Structural size of a pattern, used only to budget fuel. -/
def rxSize : Rx → Nat
  | Rx.eps => 1
  | Rx.cls _ => 1
  | Rx.cat a b => rxSize a + rxSize b + 1
  | Rx.alt a b => rxSize a + rxSize b + 1
  | Rx.star b => rxSize b + 1
  | Rx.starL b => rxSize b + 1
  | Rx.grp r => rxSize r + 1
  | Rx.wordB => 1

/-- Generous fuel bound: nesting depth is bounded by the pattern size
times the number of consumed characters plus one. -/
def rxFuel (r : Rx) (len : Nat) : Nat := (rxSize r + 2) * (len + 2) + 16

/-- Try to match `r` at the start of `rest` (`p` = preceding character).
Returns the number of consumed characters and the group-1 capture. -/
def matchAt (r : Rx) (p : Option Char) (rest : List Char) :
    Option (Nat × Option (List Char)) :=
  mrun (rxFuel r rest.length) r p rest none
    (fun _ rs g => some (rest.length - rs.length, g))

/-- Worker for `findAll` (fuel = remaining length + 1). -/
def findAllGo (r : Rx) : Nat → Option Char → List Char → List (List Char)
  | 0, _, _ => []
  | _ + 1, _, [] => []
  | f + 1, p, c :: rs =>
    match matchAt r p (c :: rs) with
    | some (n, g) =>
      if n = 0 then findAllGo r f (some c) rs
      else
        (g.getD ((c :: rs).take n)) ::
          findAllGo r f ((c :: rs).get? (n - 1)) ((c :: rs).drop n)
    | none => findAllGo r f (some c) rs

/-- Python `re.findall(pattern, text)`: scan left to right, taking the
match (or its single capturing group when the pattern has one) at each
position where one starts, then continue after it (non-overlapping). -/
def findAll (r : Rx) (text : List Char) : List (List Char) :=
  findAllGo r (text.length + 1) none text

/-! Pattern combinators mirroring the quantifiers in the source. -/

/-- Case-insensitive single character (all source patterns use
`re.IGNORECASE`). -/
def ciChar (c : Char) : Rx := Rx.cls (fun x => x.toLower == c.toLower)

/-- Case-insensitive literal string. -/
def ciStr (s : String) : Rx := s.data.foldr (fun c r => Rx.cat (ciChar c) r) Rx.eps

/-- Ordered alternation of a list of patterns (first alternative
preferred, as in Python). -/
def rxAlts : List Rx → Rx
  | [] => Rx.cls (fun _ => false)
  | [r] => r
  | r :: rs => Rx.alt r (rxAlts rs)

/-- Greedy `r?`. -/
def rxOpt (r : Rx) : Rx := Rx.alt r Rx.eps

/-- Greedy `r+`. -/
def rxPlus (r : Rx) : Rx := Rx.cat r (Rx.star r)

/-- Lazy `r+?`. -/
def rxPlusL (r : Rx) : Rx := Rx.cat r (Rx.starL r)

/-! Character classes appearing in the source patterns. -/

/-- `[A-Z]` under `re.IGNORECASE`: any ASCII letter. -/
def clsAlpha : Rx := Rx.cls Char.isAlpha

/-- `[A-Za-z\s&,\.]` (IGNORECASE makes the case split irrelevant). -/
def clsPartyName : Rx :=
  Rx.cls (fun c => c.isAlpha || pyIsSpace c || c == '&' || c == ',' || c == '.')

/-- `\d`. -/
def clsDigit : Rx := Rx.cls Char.isDigit

/-- `[\d,]`. -/
def clsDigitComma : Rx := Rx.cls (fun c => c.isDigit || c == ',')

/-- `\s`. -/
def clsSpace : Rx := Rx.cls pyIsSpace

/-- `[^\n\.]`. -/
def clsNotNlDot : Rx := Rx.cls (fun c => !(c == '\n' || c == '.'))

/-- `["\']`. -/
def clsQuote : Rx := Rx.cls (fun c => c == '"' || c == '\'')

/-- Class of a slash or a dash (date separators). -/
def clsSlashDash : Rx := Rx.cls (fun c => c == '/' || c == '-')

/-! ### The nine patterns of `identify_key_clauses` -/

/-- A party name capture: `([A-Z][A-Za-z\s&,\.]+?)`. -/
def grpPartyName : Rx := Rx.grp (Rx.cat clsAlpha (rxPlusL clsPartyName))

/-- First party pattern:
`(?:between|by and between)\s+([A-Z][A-Za-z\s&,\.]+?)\s+(?:and|,)`. -/
def party1Rx : Rx :=
  Rx.cat (rxAlts [ciStr "between", ciStr "by and between"])
    (Rx.cat (rxPlus clsSpace)
      (Rx.cat grpPartyName
        (Rx.cat (rxPlus clsSpace) (rxAlts [ciStr "and", ciStr ","]))))

/-- Role labels of the second party pattern, in source order. -/
def roleLabels2 : List String :=
  ["Client", "Provider", "Vendor", "Contractor", "Party", "Company",
   "Licensor", "Licensee", "Landlord", "Tenant", "Partner"]

/-- Second party pattern: quoted name followed by a parenthesised role
label, optionally quoted. -/
def party2Rx : Rx :=
  Rx.cat (ciChar '"')
    (Rx.cat grpPartyName
      (Rx.cat (ciChar '"')
        (Rx.cat (rxPlus clsSpace)
          (Rx.cat (ciChar '(')
            (Rx.cat (rxOpt clsQuote)
              (Rx.cat (rxAlts (roleLabels2.map ciStr))
                (Rx.cat (rxOpt clsQuote) (ciChar ')'))))))))

/-- Role labels of the third party pattern, in source order. -/
def roleLabels3 : List String :=
  ["Party", "Client", "Vendor", "Provider", "Licensor", "Licensee",
   "Landlord", "Tenant", "Partner"]

/-- Third party pattern:
`(?:Party|...)\s*[A-Z]?:\s*([A-Z][A-Za-z\s&,\.]+?)(?:\.|,|\n)`. -/
def party3Rx : Rx :=
  Rx.cat (rxAlts (roleLabels3.map ciStr))
    (Rx.cat (Rx.star clsSpace)
      (Rx.cat (rxOpt clsAlpha)
        (Rx.cat (ciChar ':')
          (Rx.cat (Rx.star clsSpace)
            (Rx.cat grpPartyName
              (rxAlts [ciChar '.', ciChar ',', ciChar '\n']))))))

/-- `\d{1,2}` (greedy). -/
def rxD12 : Rx := Rx.cat clsDigit (rxOpt clsDigit)

/-- `\d{2,4}` (greedy). -/
def rxD24 : Rx :=
  Rx.cat clsDigit (Rx.cat clsDigit (Rx.cat (rxOpt clsDigit) (rxOpt clsDigit)))

/-- `\d{4}`. -/
def rxD4 : Rx :=
  Rx.cat clsDigit (Rx.cat clsDigit (Rx.cat clsDigit clsDigit))

/-- First date pattern: word-bounded `\d{1,2}`, slash-or-dash,
`\d{1,2}`, slash-or-dash, `\d{2,4}`, all in one capturing group. -/
def date1Rx : Rx :=
  Rx.cat Rx.wordB
    (Rx.cat
      (Rx.grp (Rx.cat rxD12
        (Rx.cat clsSlashDash (Rx.cat rxD12 (Rx.cat clsSlashDash rxD24)))))
      Rx.wordB)

/-- Month names, in source order. -/
def monthNames : List String :=
  ["January", "February", "March", "April", "May", "June", "July",
   "August", "September", "October", "November", "December"]

/-- Second date pattern: `\b((?:January|...)\s+\d{1,2},?\s+\d{4})\b`. -/
def date2Rx : Rx :=
  Rx.cat Rx.wordB
    (Rx.cat
      (Rx.grp (Rx.cat (rxAlts (monthNames.map ciStr))
        (Rx.cat (rxPlus clsSpace)
          (Rx.cat rxD12
            (Rx.cat (rxOpt (ciChar ','))
              (Rx.cat (rxPlus clsSpace) rxD4))))))
      Rx.wordB)

/-- Deadline labels, in source order. -/
def deadlineLabels : List String :=
  ["deadline", "due date", "effective date", "start date", "end date",
   "termination date", "commencement date", "expiration date"]

/-- Third date pattern: `(?:deadline|...):\s*([^\n\.]+)`. -/
def date3Rx : Rx :=
  Rx.cat (rxAlts (deadlineLabels.map ciStr))
    (Rx.cat (ciChar ':')
      (Rx.cat (Rx.star clsSpace) (Rx.grp (rxPlus clsNotNlDot))))

/-- `(?:\.\d{2})?`: optional cents. -/
def rxCents : Rx := rxOpt (Rx.cat (ciChar '.') (Rx.cat clsDigit clsDigit))

/-- First financial pattern:
`\$\s*[\d,]+(?:\.\d{2})?(?:\s*(?:USD|dollars))?` (no capturing group, so
`findall` yields the full match). -/
def fin1Rx : Rx :=
  Rx.cat (ciChar '$')
    (Rx.cat (Rx.star clsSpace)
      (Rx.cat (rxPlus clsDigitComma)
        (Rx.cat rxCents
          (rxOpt (Rx.cat (Rx.star clsSpace)
            (rxAlts [ciStr "USD", ciStr "dollars"]))))))

/-- Amount keywords of the second financial pattern, in source order. -/
def amountKeywords : List String :=
  ["amount", "payment", "fee", "cost", "price", "compensation", "salary", "rent"]

/-- Second financial pattern:
`(?:amount|...):\s*\$?\s*[\d,]+(?:\.\d{2})?`. -/
def fin2Rx : Rx :=
  Rx.cat (rxAlts (amountKeywords.map ciStr))
    (Rx.cat (ciChar ':')
      (Rx.cat (Rx.star clsSpace)
        (Rx.cat (rxOpt (ciChar '$'))
          (Rx.cat (Rx.star clsSpace)
            (Rx.cat (rxPlus clsDigitComma) rxCents)))))

/-- Third financial pattern:
`(?:total|sum)(?:\s+of)?\s*\$?\s*[\d,]+(?:\.\d{2})?`. -/
def fin3Rx : Rx :=
  Rx.cat (rxAlts [ciStr "total", ciStr "sum"])
    (Rx.cat (rxOpt (Rx.cat (rxPlus clsSpace) (ciStr "of")))
      (Rx.cat (Rx.star clsSpace)
        (Rx.cat (rxOpt (ciChar '$'))
          (Rx.cat (Rx.star clsSpace)
            (Rx.cat (rxPlus clsDigitComma) rxCents)))))

/-! ### Data model

Python dict results carry a `"status"` key (`"success"` or `"error"`);
they are modelled as the sum `PipeResult`.  The error dict's remaining
keys are modelled as the message plus a key/value list, so that
"propagate the same payload unchanged" is a real statement. -/

/-- The source kind recorded by the extractor. -/
inductive SourceType where
  | text : SourceType
  | pdf : SourceType
deriving DecidableEq, Repr

/-- Python value of the `source_type` key. -/
def sourceTypeStr : SourceType → String
  | SourceType.text => "text"
  | SourceType.pdf => "pdf"

/-- `source_type.upper()` as used in the success message. -/
def sourceTypeUpper : SourceType → String
  | SourceType.text => "TEXT"
  | SourceType.pdf => "PDF"

/-- An error-status dict: its `message` plus all its other entries. -/
structure ErrorPayload where
  message : String
  extras : List (String × String)
deriving DecidableEq, Repr

/-- A stage result: an error dict or a success payload. -/
inductive PipeResult (α : Type) where
  | err (e : ErrorPayload) : PipeResult α
  | ok (a : α) : PipeResult α
deriving DecidableEq, Repr

/-- Success payload of `extract_document_text` (the `extracted_at`
timestamp is omitted; the clock is an external collaborator). -/
structure NormalizedText where
  cleaned_text : String
  word_count : Nat
  char_count : Nat
  source_type : SourceType
  message : String
deriving DecidableEq, Repr

/-- A date mention `{date, type, context}`. -/
structure DateMention where
  date : String
  type : String
  context : String
deriving DecidableEq, Repr

/-- A financial term `{amount, context}`. -/
structure FinancialTerm where
  amount : String
  context : String
deriving DecidableEq, Repr

/-- A clause-presence flag `{type, keyword, present}`. -/
structure ClauseFlag where
  type : String
  keyword : String
  present : Bool
deriving DecidableEq, Repr

/-- Success payload of `identify_key_clauses` (timestamp omitted). -/
structure ClauseInfo where
  document_type : String
  parties : List String
  dates : List DateMention
  financial_terms : List FinancialTerm
  key_clauses : List ClauseFlag
  total_parties : Nat
  total_dates : Nat
  total_financial_terms : Nat
  message : String
deriving DecidableEq, Repr

/-- One party's obligations entry. -/
structure Obligation where
  party : String
  obligations : List String
deriving DecidableEq, Repr

/-- A risk finding `{type, severity, description, impact}`. -/
structure RiskFinding where
  type : String
  severity : String
  description : String
  impact : String
deriving DecidableEq, Repr

/-- Success payload of `analyze_risks_and_obligations` (timestamp
omitted). -/
structure RiskAssessment where
  obligations : List Obligation
  risks : List RiskFinding
  missing_clauses : List String
  risk_score : Nat
  risk_level : String
  recommendations : List String
  message : String
deriving DecidableEq, Repr

/-! ### Stage 1: `extract_document_text` -/

/-- The validation-failure message of `extract_document_text`. -/
def tooShortMessage : String :=
  "Document text is too short or empty. Please provide a valid legal document (text or PDF)."

/-- The empty-text message of `identify_key_clauses`. -/
def noTextMessage : String := "No text available for clause identification"

/-- The error dict returned when the document is empty or too short. -/
def extractErrorPayload (st : SourceType) : ErrorPayload :=
  ⟨tooShortMessage,
   [("cleaned_text", ""), ("word_count", "0"), ("char_count", "0"),
    ("source_type", sourceTypeStr st)]⟩

/-- Effective text and source kind: PDF-extracted text (when a PDF
artifact was processed) takes precedence; empty PDF text falls back to
the directly supplied text when that is truthy. -/
def effectivePair (document_text : Option String) (pdf_text : Option String) :
    String × SourceType :=
  let s1 : String × SourceType :=
    match pdf_text with
    | some p => (p, SourceType.pdf)
    | none => ("", SourceType.text)
  if s1.1 = "" then
    match document_text with
    | some t => if t = "" then s1 else (t, SourceType.text)
    | none => s1
  else s1

/-- The cleaning transformation: `strip`, collapse whitespace runs to a
single space, remove control characters. -/
def cleanedOf (s : String) : List Char := removeCtrl (collapseWs (pyStrip s.data))

/-- `extract_document_text`: validate (trimmed length at least 50) and
clean.  `pdf_text` models the text extracted from an uploaded PDF
artifact by the external PDF collaborator, when one is present. -/
def extract_document_text (document_text : Option String)
    (pdf_text : Option String) : PipeResult NormalizedText :=
  let ep := effectivePair document_text pdf_text
  if ep.1 = "" ∨ (pyStrip ep.1.data).length < 50 then
    PipeResult.err (extractErrorPayload ep.2)
  else
    let cleaned := cleanedOf ep.1
    PipeResult.ok ⟨String.mk cleaned, countWords cleaned, cleaned.length, ep.2,
      "Document extracted and cleaned successfully from " ++ sourceTypeUpper ep.2⟩

/-! ### Stage 2: `identify_key_clauses` -/

/-- `match.strip().rstrip('.,')` applied to a raw party match. -/
def cleanParty (m : List Char) : String :=
  String.mk (((pyStrip m).reverse.dropWhile (fun c => c == '.' || c == ',')).reverse)

/-- Append cleaned matches to the party list: keep a match when it is
nonempty, longer than 2 characters, and not already present. -/
def addParties (acc : List String) (ms : List (List Char)) : List String :=
  ms.foldl
    (fun acc m =>
      let s := cleanParty m
      if s ≠ "" ∧ 2 < s.length ∧ s ∉ acc then acc ++ [s] else acc)
    acc

/-- All parties found by the three party patterns, in source order,
deduplicated by exact string equality. -/
def findParties (text : List Char) : List String :=
  addParties (addParties (addParties [] (findAll party1Rx text))
    (findAll party2Rx text)) (findAll party3Rx text)

/-- All date mentions found by the three date patterns. -/
def findDates (text : List Char) : List DateMention :=
  (findAll date1Rx text).map
      (fun m => ⟨String.mk (pyStrip m), "date", "identified in document"⟩) ++
    (findAll date2Rx text).map
      (fun m => ⟨String.mk (pyStrip m), "date", "identified in document"⟩) ++
    (findAll date3Rx text).map
      (fun m => ⟨String.mk (pyStrip m), "deadline", "identified in document"⟩)

/-- All financial terms found by the three financial patterns. -/
def findFinancialTerms (text : List Char) : List FinancialTerm :=
  ((findAll fin1Rx text) ++ (findAll fin2Rx text) ++ (findAll fin3Rx text)).map
    (fun m => ⟨String.mk (pyStrip m), "financial term identified"⟩)

/-- The fixed clause taxonomy with its ordered keyword variants. -/
def clause_keywords : List (String × List String) :=
  [("Termination", ["termination", "terminate", "cancellation", "cancel agreement"]),
   ("Liability", ["liability", "indemnification", "indemnify", "hold harmless"]),
   ("Confidentiality", ["confidential", "non-disclosure", "proprietary information"]),
   ("Payment", ["payment terms", "invoice", "compensation", "consideration"]),
   ("Intellectual Property", ["intellectual property", "IP rights", "copyright", "trademark"]),
   ("Dispute Resolution", ["arbitration", "mediation", "dispute resolution", "jurisdiction"]),
   ("Force Majeure", ["force majeure", "acts of god", "unforeseeable circumstances"]),
   ("Non-Compete", ["non-compete", "non-competition", "restrictive covenant"]),
   ("Warranty", ["warranty", "warranties", "represent and warrant"])]

/-- `keyword.lower() in text.lower()`: case-insensitive substring hit. -/
def kwHit (text : List Char) (kw : String) : Bool :=
  containsSub (lowerL kw.data) (lowerL text)

/-- Clause detection: for each type, record the first keyword variant
that occurs case-insensitively in the text; a type with no match is
absent. -/
def keyClausesOf (text : List Char) : List ClauseFlag :=
  clause_keywords.filterMap
    (fun p => (p.2.find? (kwHit text)).map (fun kw => ⟨p.1, kw, true⟩))

/-- Document-type classification: first matching rule wins. -/
def documentTypeOf (text : List Char) : String :=
  let lt := lowerL text
  let has : String → Bool := fun kw => containsSub kw.data lt
  if has "employment" || has "employee" then "Employment Agreement"
  else if has "service" && has "provider" then "Service Agreement"
  else if has "purchase" || has "sale" then "Purchase Agreement"
  else if has "lease" || has "rent" then "Lease Agreement"
  else if has "non-disclosure" || has "confidentiality" then "NDA (Non-Disclosure Agreement)"
  else if has "partnership" || has "partner" then "Partnership Agreement"
  else if has "license" && has "software" then "Software License Agreement"
  else "General Contract/Agreement"

/-- The sentinel placeholder emitted when no party was found. -/
def sentinelParty : String := "Party information not clearly identified"

/-- Success branch of `identify_key_clauses`. -/
def identifyInfo (n : NormalizedText) : ClauseInfo :=
  let text := n.cleaned_text.data
  let parties := findParties text
  let dates := findDates text
  let fin := findFinancialTerms text
  ⟨documentTypeOf text,
   if parties.length > 0 then parties.take 5 else [sentinelParty],
   dates.take 10, fin.take 10, keyClausesOf text,
   parties.length, dates.length, fin.length,
   "Key clauses identified successfully"⟩

/-- `identify_key_clauses`: pass an upstream error through unchanged,
reject empty cleaned text, otherwise extract entities and clauses. -/
def identify_key_clauses : PipeResult NormalizedText → PipeResult ClauseInfo
  | PipeResult.err e => PipeResult.err e
  | PipeResult.ok n =>
    if n.cleaned_text = "" then
      PipeResult.err ⟨noTextMessage, []⟩
    else PipeResult.ok (identifyInfo n)

/-! ### Stage 3: `analyze_risks_and_obligations` -/

/-- Python `', '.join` and friends. -/
def joinWith (sep : String) : List String → String
  | [] => ""
  | [x] => x
  | x :: xs => x ++ sep ++ joinWith sep xs

/-- Python `str(list_of_strings)` for strings without quote or escape
characters: `['a', 'b']`. -/
def listReprStr (l : List String) : String :=
  "[" ++ joinWith ", " (l.map (fun s => "'" ++ s ++ "'")) ++ "]"

/-- The clause types whose absence is critical. -/
def criticalClauses : List String := ["Termination", "Liability", "Dispute Resolution"]

/-- The clause types present in an extraction result. -/
def presentTypes (ci : ClauseInfo) : List String := ci.key_clauses.map (·.type)

/-- Critical clauses not present, in `criticalClauses` order. -/
def missingOf (ci : ClauseInfo) : List String :=
  criticalClauses.filter (fun c => !((presentTypes ci).contains c))

/-- Risk-2 condition: no parties, or the stringified (lower-cased) party
list contains the phrase `not clearly identified`. -/
def unclearCond (ci : ClauseInfo) : Bool :=
  ci.parties.length == 0 ||
    containsSub ("not clearly identified".data) (lowerL (listReprStr ci.parties).data)

/-- Weight of risk 1 (missing critical clauses). -/
def criticalTermW (ci : ClauseInfo) : Nat := if (missingOf ci).isEmpty then 0 else 3

/-- Weight of risk 2 (unclear parties). -/
def partyTermW (ci : ClauseInfo) : Nat := if unclearCond ci then 3 else 0

/-- Weight of risk 3 (no financial terms). -/
def finTermW (ci : ClauseInfo) : Nat := if ci.financial_terms.length == 0 then 2 else 0

/-- Weight of risk 4 (no dates). -/
def dateTermW (ci : ClauseInfo) : Nat := if ci.dates.length == 0 then 2 else 0

/-- Weight of risk 5 (no Liability clause). -/
def liabTermW (ci : ClauseInfo) : Nat :=
  if (presentTypes ci).contains "Liability" then 0 else 3

/-- The accumulated risk score before the clamp. -/
def raw_risk_score (ci : ClauseInfo) : Nat :=
  criticalTermW ci + partyTermW ci + finTermW ci + dateTermW ci + liabTermW ci

/-- The missing-critical-clauses High finding. -/
def mccFinding (ci : ClauseInfo) : RiskFinding :=
  ⟨"Missing Critical Clauses", "High",
   "The following critical clauses are missing: " ++ joinWith ", " (missingOf ci),
   "May lead to disputes or unclear terms in case of conflicts"⟩

/-- The unclear-party High finding. -/
def unclearFinding : RiskFinding :=
  ⟨"Unclear Party Identification", "High",
   "Parties to the agreement are not clearly identified",
   "May cause enforceability issues"⟩

/-- The no-financial-terms Medium finding. -/
def noFinFinding : RiskFinding :=
  ⟨"No Financial Terms", "Medium",
   "No clear financial terms or amounts identified",
   "May lead to payment disputes"⟩

/-- The no-dates Medium finding. -/
def noDatesFinding : RiskFinding :=
  ⟨"No Dates or Deadlines", "Medium",
   "No specific dates or deadlines identified",
   "Unclear timeline for obligations and deliverables"⟩

/-- The no-liability-clause High finding. -/
def noLiabFinding : RiskFinding :=
  ⟨"No Liability Clause", "High",
   "No indemnification or liability limitations identified",
   "Unlimited liability exposure"⟩

/-- The low-risk fallback finding. -/
def lowRiskFinding : RiskFinding :=
  ⟨"Low Risk", "Low", "Document appears to have standard clauses",
   "Minimal immediate concerns identified"⟩

/-- Findings of risk 1 (missing critical clauses). -/
def risk1L (ci : ClauseInfo) : List RiskFinding :=
  if (missingOf ci).isEmpty then [] else [mccFinding ci]

/-- Findings of risk 2 (unclear parties). -/
def risk2L (ci : ClauseInfo) : List RiskFinding :=
  if unclearCond ci then [unclearFinding] else []

/-- Findings of risk 3 (no financial terms). -/
def risk3L (ci : ClauseInfo) : List RiskFinding :=
  if ci.financial_terms.length == 0 then [noFinFinding] else []

/-- Findings of risk 4 (no dates). -/
def risk4L (ci : ClauseInfo) : List RiskFinding :=
  if ci.dates.length == 0 then [noDatesFinding] else []

/-- Findings of risk 5 (no liability clause). -/
def risk5L (ci : ClauseInfo) : List RiskFinding :=
  if (presentTypes ci).contains "Liability" then [] else [noLiabFinding]

/-- All condition findings, in firing order. -/
def allRisksL (ci : ClauseInfo) : List RiskFinding :=
  risk1L ci ++ risk2L ci ++ risk3L ci ++ risk4L ci ++ risk5L ci

/-- The risk findings: the fired conditions' findings, or the single Low
fallback when none fired. -/
def risksOf (ci : ClauseInfo) : List RiskFinding :=
  if (allRisksL ci).isEmpty then [lowRiskFinding] else allRisksL ci

/-- One party's obligation entry, derived from the present clause
flags. -/
def partyObligation (ci : ClauseInfo) (party : String) : Obligation :=
  let obls :=
    (if (presentTypes ci).contains "Payment" then
      ["Financial obligations as per payment terms specified in the agreement"]
    else []) ++
    (if (presentTypes ci).contains "Confidentiality" then
      ["Maintain confidentiality of proprietary information"]
    else []) ++
    (if (presentTypes ci).contains "Termination" then
      ["Comply with termination notice requirements and procedures"]
    else [])
  ⟨party, if obls.isEmpty then
    ["Obligations to be reviewed in detail within the document"] else obls⟩

/-- One obligation entry per party (first three parties). -/
def obligationsOf (ci : ClauseInfo) : List Obligation :=
  if ci.parties.length > 0 then (ci.parties.take 3).map (partyObligation ci)
  else []

/-- Recommendations, in the fixed firing order of the source. -/
def recommendationsOf (ci : ClauseInfo) (score : Nat) : List String :=
  (if (missingOf ci).isEmpty then []
   else ["Consider adding the following clauses: " ++ joinWith ", " (missingOf ci)]) ++
    [if 7 ≤ score then "High risk document - Strongly recommend legal review before signing"
     else if 4 ≤ score then "Medium risk - Review and clarify identified concerns"
     else "Low risk - Standard review recommended"] ++
    (if ci.parties.length < 2 then
      ["Clearly identify all parties with full legal names and addresses"]
    else []) ++
    (if ci.financial_terms.length == 0 then
      ["Ensure all payment terms, amounts, and schedules are clearly specified"]
    else []) ++
    ["Always have legal counsel review contracts before execution"]

/-- Success branch of `analyze_risks_and_obligations`. -/
def analyzeInfo (ci : ClauseInfo) : RiskAssessment :=
  let score := min (raw_risk_score ci) 10
  ⟨obligationsOf ci, risksOf ci, missingOf ci, score,
   (if 7 ≤ score then "High" else if 4 ≤ score then "Medium" else "Low"),
   recommendationsOf ci score,
   "Risk analysis completed successfully"⟩

/-- `analyze_risks_and_obligations`: pass an upstream error through
unchanged, otherwise assess risk. -/
def analyze_risks_and_obligations : PipeResult ClauseInfo → PipeResult RiskAssessment
  | PipeResult.err e => PipeResult.err e
  | PipeResult.ok ci => PipeResult.ok (analyzeInfo ci)

/-! ### Stage 4: `generate_analysis_report`

The source file stores its banner glyphs as mojibake byte sequences
(e.g. `‚ùå`); the literals below reproduce them exactly. -/

/-- A string of `n` copies of `c` (Python `c * n`). -/
def repeatStr (n : Nat) (c : Char) : String := String.mk (List.replicate n c)

/-- Python `str.ljust` (and the `:<w` format specifier). -/
def pyLJust (s : String) (w : Nat) : String := s ++ repeatStr (w - s.length) ' '

/-- `"=" * 80`. -/
def eq80 : String := repeatStr 80 '='

/-- `"-" * 80`. -/
def dash80 : String := repeatStr 80 '-'

/-- `generate_analysis_report`: on an upstream error, a single error
line; otherwise the fixed-section report.  `now` is the injected
wall-clock display string (`datetime.now().strftime(...)` in the
source). -/
def generate_analysis_report (risk_result : PipeResult RiskAssessment)
    (now : String) : String :=
  match risk_result with
  | PipeResult.err e => "‚ùå Error: " ++ e.message
  | PipeResult.ok r =>
    eq80 ++ "\n" ++ "üìÑ LEGAL DOCUMENT ANALYSIS REPORT\n" ++ eq80 ++ "\n\n" ++
      "üéØ EXECUTIVE SUMMARY\n" ++ dash80 ++ "\n" ++
      "Risk Level: " ++ r.risk_level ++ "\n" ++
      "Risk Score: " ++ toString r.risk_score ++ "/10\n" ++
      "Analysis Date: " ++ now ++ "\n" ++ "\n" ++
      "üìã PARTY OBLIGATIONS\n" ++ dash80 ++ "\n" ++
      (if r.obligations.length > 0 then
        String.join (r.obligations.enum.map (fun p =>
          "\n" ++ toString (p.1 + 1) ++ ". " ++ p.2.party ++ ":\n" ++
            String.join (p.2.obligations.map (fun o => "   ‚Ä¢ " ++ o ++ "\n"))))
      else "No specific obligations identified.\n") ++ "\n" ++
      "‚ö†Ô∏è  IDENTIFIED RISKS\n" ++ dash80 ++ "\n" ++
      (if r.risks.length > 0 then
        String.join (r.risks.enum.map (fun p =>
          "\n" ++ toString (p.1 + 1) ++ ". " ++ p.2.type ++ " [" ++ p.2.severity ++
            " Severity]\n" ++
            "   Description: " ++ p.2.description ++ "\n" ++
            "   Impact: " ++ p.2.impact ++ "\n"))
      else "No significant risks identified.\n") ++ "\n" ++
      "üí° RECOMMENDATIONS\n" ++ dash80 ++ "\n" ++
      (if r.recommendations.length > 0 then
        String.join (r.recommendations.enum.map (fun p =>
          toString (p.1 + 1) ++ ". " ++ p.2 ++ "\n"))
      else "No specific recommendations at this time.\n") ++ "\n" ++
      eq80 ++ "\n" ++
      "‚öñÔ∏è  This is an automated analysis. Please consult with legal counsel\n" ++
      "   for professional advice before making any decisions.\n" ++ eq80 ++ "\n"

/-! ### `compare_two_documents` -/

/-- `"=" * 90`. -/
def eq90 : String := repeatStr 90 '='

/-- `"-" * 90`. -/
def dash90 : String := repeatStr 90 '-'

/-- Deduplicate preserving first occurrence (models building a Python
set from a list; all uses below are order-insensitive: lengths,
membership, and sorted rendering). -/
def dedupL (l : List String) : List String :=
  l.foldl (fun acc x => if x ∈ acc then acc else acc ++ [x]) []

/-- Insert into a sorted list of strings. -/
def insertStr (x : String) : List String → List String
  | [] => [x]
  | y :: ys => if x ≤ y then x :: y :: ys else y :: insertStr x ys

/-- Python `sorted` for strings. -/
def sortStr (l : List String) : List String := l.foldr insertStr []

/-- Set intersection of two clause-type lists. -/
def commonSetL (xa xb : List String) : List String :=
  (dedupL xa).filter (fun x => (dedupL xb).contains x)

/-- Set difference of two clause-type lists. -/
def onlySetL (xa xb : List String) : List String :=
  (dedupL xa).filter (fun x => !((dedupL xb).contains x))

/-- Bullet lines of the clause-comparison section. -/
def bulletLines (l : List String) : String :=
  String.join (l.map (fun c => "   ‚Ä¢ " ++ c ++ "\n"))

/-- Executive-summary comparison table. -/
def cmpSummarySection (ea : NormalizedText) (ca : ClauseInfo) (ra : RiskAssessment)
    (eb : NormalizedText) (cb : ClauseInfo) (rb : RiskAssessment) : String :=
  eq90 ++ "\n" ++ "üîÑ CONTRACT COMPARISON REPORT\n" ++ eq90 ++ "\n\n" ++
    "üìä EXECUTIVE SUMMARY COMPARISON\n" ++ dash90 ++ "\n" ++
    pyLJust "Metric" 30 ++ " " ++ pyLJust "Document A" 30 ++ " " ++
    pyLJust "Document B" 30 ++ "\n" ++ dash90 ++ "\n" ++
    pyLJust "Document Type:" 30 ++ " " ++ pyLJust ca.document_type 30 ++ " " ++
    pyLJust cb.document_type 30 ++ "\n" ++
    pyLJust "Risk Level:" 30 ++ " " ++ pyLJust ra.risk_level 30 ++ " " ++
    pyLJust rb.risk_level 30 ++ "\n" ++
    pyLJust "Risk Score:" 30 ++ " " ++ toString ra.risk_score ++ "/10" ++
    repeatStr 25 ' ' ++ " " ++ toString rb.risk_score ++ "/10" ++ repeatStr 25 ' ' ++ "\n" ++
    pyLJust "Word Count:" 30 ++ " " ++ pyLJust (toString ea.word_count) 30 ++ " " ++
    pyLJust (toString eb.word_count) 30 ++ "\n" ++
    pyLJust "Number of Parties:" 30 ++ " " ++ pyLJust (toString ca.parties.length) 30 ++
    " " ++ pyLJust (toString cb.parties.length) 30 ++ "\n" ++
    "\n"

/-- Risk-level comparison section: strictly-lower score wins, equal
scores yield the tie statement. -/
def riskCmpSection (sa sb : Nat) : String :=
  "‚öñÔ∏è  RISK LEVEL COMPARISON\n" ++ dash90 ++ "\n" ++
    (if sa < sb then
      "‚úÖ Document A has LOWER risk (Score: " ++ toString sa ++
        "/10) compared to Document B (Score: " ++ toString sb ++ "/10)\n" ++
        "   Difference: " ++ toString (sb - sa) ++ " points\n"
    else if sb < sa then
      "‚úÖ Document B has LOWER risk (Score: " ++ toString sb ++
        "/10) compared to Document A (Score: " ++ toString sa ++ "/10)\n" ++
        "   Difference: " ++ toString (sa - sb) ++ " points\n"
    else
      "‚öñÔ∏è  Both documents have EQUAL risk (Score: " ++ toString sa ++ "/10)\n") ++
    "\n"

/-- Financial-terms comparison section. -/
def finCmpSection (ca cb : ClauseInfo) : String :=
  "üí∞ FINANCIAL TERMS COMPARISON\n" ++ dash90 ++ "\n" ++
    "Document A: " ++ toString ca.financial_terms.length ++ " financial terms identified\n" ++
    (if ca.financial_terms.length > 0 then
      String.join ((ca.financial_terms.take 3).enum.map (fun p =>
        "   " ++ toString (p.1 + 1) ++ ". " ++ p.2.amount ++ "\n"))
    else "") ++
    "\nDocument B: " ++ toString cb.financial_terms.length ++ " financial terms identified\n" ++
    (if cb.financial_terms.length > 0 then
      String.join ((cb.financial_terms.take 3).enum.map (fun p =>
        "   " ++ toString (p.1 + 1) ++ ". " ++ p.2.amount ++ "\n"))
    else "") ++
    "\n"

/-- Key-clauses comparison section (set operations over clause types). -/
def clauseCmpSection (ta tb : List String) : String :=
  let common := commonSetL ta tb
  let onlyA := onlySetL ta tb
  let onlyB := onlySetL tb ta
  "üìã KEY CLAUSES COMPARISON\n" ++ dash90 ++ "\n" ++
    "‚úÖ Clauses in BOTH documents (" ++ toString common.length ++ "):\n" ++
    (if common.isEmpty then "   None\n" else bulletLines (sortStr common)) ++
    "\nüìÑ Clauses ONLY in Document A (" ++ toString onlyA.length ++ "):\n" ++
    (if onlyA.isEmpty then "   None\n" else bulletLines (sortStr onlyA)) ++
    "\nüìÑ Clauses ONLY in Document B (" ++ toString onlyB.length ++ "):\n" ++
    (if onlyB.isEmpty then "   None\n" else bulletLines (sortStr onlyB)) ++
    "\n"

/-- Missing-critical-clauses comparison section. -/
def missingCmpSection (ra rb : RiskAssessment) : String :=
  "‚ö†Ô∏è  MISSING CRITICAL CLAUSES\n" ++ dash90 ++ "\n" ++
    "Document A missing: " ++
    (if ra.missing_clauses.isEmpty then "None" else joinWith ", " ra.missing_clauses) ++ "\n" ++
    "Document B missing: " ++
    (if rb.missing_clauses.isEmpty then "None" else joinWith ", " rb.missing_clauses) ++ "\n" ++
    "\n"

/-- Comparative-recommendations section. -/
def recCmpSection (ta tb : List String) (finA finB : Nat) (sa sb : Nat) : String :=
  "üí° COMPARATIVE RECOMMENDATIONS\n" ++ dash90 ++ "\n" ++
    (if sa < sb then
      "1. Document A appears to be the better option from a risk perspective\n" ++
        "2. Document B has " ++ toString (sb - sa) ++ " more risk points\n"
    else if sb < sa then
      "1. Document B appears to be the better option from a risk perspective\n" ++
        "2. Document A has " ++ toString (sa - sb) ++ " more risk points\n"
    else "1. Both documents have similar risk profiles\n") ++
    (let onlyA := onlySetL ta tb
     let onlyB := onlySetL tb ta
     if !onlyA.isEmpty && onlyB.isEmpty then
       "3. Document A has more comprehensive clause coverage\n"
     else if !onlyB.isEmpty && onlyA.isEmpty then
       "3. Document B has more comprehensive clause coverage\n"
     else "") ++
    (if finB < finA then "4. Document A has more detailed financial terms\n"
    else if finA < finB then "4. Document B has more detailed financial terms\n"
    else "") ++
    "5. Always consult with legal counsel before choosing between contracts\n" ++
    "\n"

/-- Comparison-report footer. -/
def cmpFooter : String :=
  eq90 ++ "\n" ++
    "‚öñÔ∏è  This is an automated comparison. Professional legal advice is strongly recommended.\n" ++
    eq90 ++ "\n"

/-- The full comparison report on dual success. -/
def compareReport (ea : NormalizedText) (ca : ClauseInfo) (ra : RiskAssessment)
    (eb : NormalizedText) (cb : ClauseInfo) (rb : RiskAssessment) : String :=
  let pre := cmpSummarySection ea ca ra eb cb rb
  let post :=
    finCmpSection ca cb ++
      clauseCmpSection (presentTypes ca) (presentTypes cb) ++
      missingCmpSection ra rb ++
      recCmpSection (presentTypes ca) (presentTypes cb)
        ca.financial_terms.length cb.financial_terms.length
        ra.risk_score rb.risk_score ++
      cmpFooter
  pre ++ (riskCmpSection ra.risk_score rb.risk_score ++ post)

/-- One document's extraction inside the comparator (plain text path,
no PDF artifact). -/
def comparePipelineExtraction (t : String) : PipeResult NormalizedText :=
  extract_document_text (some t) none

/-- One document's clause identification inside the comparator. -/
def comparePipelineClauses (t : String) : PipeResult ClauseInfo :=
  identify_key_clauses (comparePipelineExtraction t)

/-- One document's risk assessment inside the comparator. -/
def comparePipelineRisk (t : String) : PipeResult RiskAssessment :=
  analyze_risks_and_obligations (comparePipelineClauses t)

/-- The party count shown in the comparison table,
`len(clause_result.get("parties", []))`. -/
def partiesCountOfR : PipeResult ClauseInfo → Nat
  | PipeResult.ok ci => ci.parties.length
  | PipeResult.err _ => 0

/-- `compare_two_documents`: run the pipeline on both documents,
aborting with the failing side's stage error, then render the
side-by-side report. -/
def compare_two_documents (da db : String) : String :=
  match comparePipelineExtraction da with
  | PipeResult.err e => "‚ùå Error analyzing Document A: " ++ e.message
  | PipeResult.ok ea =>
    match identify_key_clauses (PipeResult.ok ea) with
    | PipeResult.err e => "‚ùå Error identifying clauses in Document A: " ++ e.message
    | PipeResult.ok ca =>
      match analyze_risks_and_obligations (PipeResult.ok ca) with
      | PipeResult.err e => "‚ùå Error analyzing risks in Document A: " ++ e.message
      | PipeResult.ok ra =>
        match comparePipelineExtraction db with
        | PipeResult.err e => "‚ùå Error analyzing Document B: " ++ e.message
        | PipeResult.ok eb =>
          match identify_key_clauses (PipeResult.ok eb) with
          | PipeResult.err e => "‚ùå Error identifying clauses in Document B: " ++ e.message
          | PipeResult.ok cb =>
            match analyze_risks_and_obligations (PipeResult.ok cb) with
            | PipeResult.err e => "‚ùå Error analyzing risks in Document B: " ++ e.message
            | PipeResult.ok rb => compareReport ea ca ra eb cb rb

/-! ### Shared sample inputs for witnesses -/

/-- A concrete extraction result with empty clause set. -/
def sampleClause : ClauseInfo :=
  ⟨"General Contract/Agreement", ["Acme Holdings", "Birch Labs"], [], [], [],
   2, 0, 0, "Key clauses identified successfully"⟩

/-- A concrete extraction result whose party name contains the sentinel
phrase. -/
def sampleClauseUnclear : ClauseInfo :=
  ⟨"General Contract/Agreement", ["Acme not clearly identified Corp"], [], [], [],
   1, 0, 0, "Key clauses identified successfully"⟩

/-! ### Verified claims -/

/-- C1: for every input to the risk assessor, the `risk_score` of a
successful assessment lies in the closed range 0..10. -/
theorem risk_score_in_range (input : PipeResult ClauseInfo) (r : RiskAssessment)
    (h : analyze_risks_and_obligations input = PipeResult.ok r) :
    0 ≤ r.risk_score ∧ r.risk_score ≤ 10 := by
  cases input with
  | err e => simp [analyze_risks_and_obligations] at h
  | ok ci =>
    simp only [analyze_risks_and_obligations, PipeResult.ok.injEq] at h
    subst h
    exact ⟨Nat.zero_le _, Nat.min_le_right _ _⟩

/-- Witness for C1 at a concrete extraction result. -/
theorem risk_score_in_range_witness :
    0 ≤ (analyzeInfo sampleClause).risk_score ∧
      (analyzeInfo sampleClause).risk_score ≤ 10 :=
  risk_score_in_range (PipeResult.ok sampleClause) (analyzeInfo sampleClause) rfl

/-- C7: both downstream stages return an upstream error result
unchanged, performing no work of their own. -/
theorem upstream_error_passthrough (e : ErrorPayload) :
    identify_key_clauses (PipeResult.err e) = PipeResult.err e ∧
      analyze_risks_and_obligations (PipeResult.err e) = PipeResult.err e :=
  ⟨rfl, rfl⟩

/-- The fixed report-section markers of the single-document report. -/
def reportSectionMarkers : List String :=
  ["EXECUTIVE SUMMARY", "PARTY OBLIGATIONS", "IDENTIFIED RISKS",
   "RECOMMENDATIONS", "This is an automated analysis"]

/-- C8: on an upstream error, the report generator emits one line
containing the upstream message, with no newline and none of the fixed
report sections (stated for the error messages the pipeline produces). -/
theorem error_report_single_line (e : ErrorPayload) (now : String)
    (hm : e.message = tooShortMessage ∨ e.message = noTextMessage) :
    generate_analysis_report (PipeResult.err e) now = "‚ùå Error: " ++ e.message ∧
      (generate_analysis_report (PipeResult.err e) now).data.contains '\n' = false ∧
      ∀ m ∈ reportSectionMarkers,
        strContains m (generate_analysis_report (PipeResult.err e) now) = false := by
  refine ⟨rfl, ?_, ?_⟩ <;> rcases hm with hm | hm <;>
    simp only [generate_analysis_report, hm] <;> decide

/-- Witness for C8 at the concrete too-short error payload. -/
theorem error_report_single_line_witness :
    generate_analysis_report (PipeResult.err (extractErrorPayload SourceType.text)) "" =
        "‚ùå Error: " ++ (extractErrorPayload SourceType.text).message ∧
      (generate_analysis_report (PipeResult.err (extractErrorPayload SourceType.text)) "").data.contains '\n' = false ∧
      ∀ m ∈ reportSectionMarkers,
        strContains m
          (generate_analysis_report (PipeResult.err (extractErrorPayload SourceType.text)) "") = false :=
  error_report_single_line (extractErrorPayload SourceType.text) "" (Or.inl rfl)

/-- Any element of a joined list occurs contiguously in the join. -/
theorem mem_joinWith (sep x : String) (l : List String) (hx : x ∈ l) :
    ∃ s t, (joinWith sep l).data = s ++ x.data ++ t := by
  induction l with
  | nil => cases hx
  | cons y ys ih =>
    rcases List.mem_cons.mp hx with rfl | hmem
    · cases ys with
      | nil => exact ⟨[], [], by simp [joinWith]⟩
      | cons z zs =>
        refine ⟨[], (sep ++ joinWith sep (z :: zs)).data, ?_⟩
        simp [joinWith, String.data_append]
    · cases ys with
      | nil => cases hmem
      | cons z zs =>
        rcases ih hmem with ⟨s, t, hst⟩
        refine ⟨(y ++ sep).data ++ s, t, ?_⟩
        simp [joinWith, String.data_append, hst]

/-- Any member of a party list occurs contiguously in the list's Python
`str` representation. -/
theorem mem_listReprStr (p : String) (l : List String) (hp : p ∈ l) :
    ∃ s t, (listReprStr l).data = s ++ p.data ++ t := by
  have hq : ("'" ++ p ++ "'") ∈ l.map (fun s => "'" ++ s ++ "'") :=
    List.mem_map.mpr ⟨p, hp, rfl⟩
  rcases mem_joinWith ", " _ _ hq with ⟨s, t, hst⟩
  refine ⟨"[".data ++ (s ++ "'".data), ("'".data ++ t) ++ "]".data, ?_⟩
  have hd : ("'" ++ p ++ "'").data = "'".data ++ p.data ++ "'".data := by
    simp [String.data_append]
  rw [hd] at hst
  simp [listReprStr, String.data_append, hst]

/-- The unclear-party condition holds whenever some listed party name
contains the sentinel phrase (case-insensitively). -/
theorem unclearCond_of_party (ci : ClauseInfo) (p : String)
    (hp : p ∈ ci.parties)
    (hsub : containsSub "not clearly identified".data (lowerL p.data) = true) :
    unclearCond ci = true := by
  rcases mem_listReprStr p ci.parties hp with ⟨s, t, hst⟩
  rcases (containsSub_iff _ _).mp hsub with ⟨a, b, hab⟩
  have hrep : containsSub "not clearly identified".data
      (lowerL (listReprStr ci.parties).data) = true := by
    rw [hst]
    unfold lowerL at *
    rw [List.map_append, List.map_append, hab]
    have hre : List.map Char.toLower s ++ (a ++ "not clearly identified".data ++ b) ++
        List.map Char.toLower t =
        (List.map Char.toLower s ++ a) ++ "not clearly identified".data ++
          (b ++ List.map Char.toLower t) := by
      simp
    rw [hre]
    exact containsSub_of_parts _ _ _
  unfold unclearCond
  rw [hrep]
  simp

/-- When the unclear-party condition holds, the finding is among the
emitted risks. -/
theorem unclearFinding_mem (ci : ClauseInfo) (h : unclearCond ci = true) :
    unclearFinding ∈ (analyzeInfo ci).risks := by
  have hx : unclearFinding ∈ allRisksL ci := by
    unfold allRisksL risk2L
    rw [h]
    simp
  show unclearFinding ∈ risksOf ci
  unfold risksOf
  split
  · next hemp =>
    rw [List.isEmpty_iff] at hemp
    rw [hemp] at hx
    cases hx
  · exact hx

/-- C10: when a real (non-sentinel) party name contains the phrase
`not clearly identified`, the unclear-party condition fires through the
stringified party list even though the raw party count is nonzero: the
High finding is emitted and 3 is added to the score. -/
theorem sentinel_substring_over_repr (ci : ClauseInfo) (p : String)
    (hne : ci.parties ≠ []) (hcnt : 0 < ci.total_parties)
    (hp : p ∈ ci.parties)
    (hsub : containsSub "not clearly identified".data (lowerL p.data) = true) :
    partyTermW ci = 3 ∧
      unclearFinding ∈ (analyzeInfo ci).risks ∧
      raw_risk_score ci =
        criticalTermW ci + 3 + finTermW ci + dateTermW ci + liabTermW ci := by
  have hu := unclearCond_of_party ci p hp hsub
  have hw : partyTermW ci = 3 := by
    unfold partyTermW
    simp [hu]
  refine ⟨hw, unclearFinding_mem ci hu, ?_⟩
  unfold raw_risk_score
  rw [hw]

/-- Witness for C10 at a concrete one-party extraction result. -/
theorem sentinel_substring_over_repr_witness :
    partyTermW sampleClauseUnclear = 3 ∧
      unclearFinding ∈ (analyzeInfo sampleClauseUnclear).risks ∧
      raw_risk_score sampleClauseUnclear =
        criticalTermW sampleClauseUnclear + 3 + finTermW sampleClauseUnclear +
          dateTermW sampleClauseUnclear + liabTermW sampleClauseUnclear :=
  sentinel_substring_over_repr sampleClauseUnclear
    "Acme not clearly identified Corp" (by decide) (by decide) (by decide) (by decide)

/-- Extraction fails with the too-short error when the effective text's
trimmed length is below 50. -/
theorem extract_err_short (document_text pdf_text : Option String)
    (h : (pyStrip (effectivePair document_text pdf_text).1.data).length < 50) :
    extract_document_text document_text pdf_text =
      PipeResult.err (extractErrorPayload (effectivePair document_text pdf_text).2) := by
  unfold extract_document_text
  rw [if_pos (Or.inr h)]

/-- C2: the trimmed-length-50 gate of `extract_document_text` is the
sole validation: the effective input text fails with the
too-short error exactly when its trimmed length is below 50, and
otherwise extraction succeeds. -/
theorem length_gate (document_text pdf_text : Option String) :
    ((pyStrip (effectivePair document_text pdf_text).1.data).length < 50 →
      extract_document_text document_text pdf_text =
        PipeResult.err (extractErrorPayload (effectivePair document_text pdf_text).2)) ∧
    (50 ≤ (pyStrip (effectivePair document_text pdf_text).1.data).length →
      ∃ n, extract_document_text document_text pdf_text = PipeResult.ok n) := by
  constructor
  · exact extract_err_short document_text pdf_text
  · intro h
    have hne : (effectivePair document_text pdf_text).1 ≠ "" := by
      intro he
      have h0 : (pyStrip ("" : String).data).length = 0 := by decide
      rw [he, h0] at h
      omega
    have hcond : ¬((effectivePair document_text pdf_text).1 = "" ∨
        (pyStrip (effectivePair document_text pdf_text).1.data).length < 50) := by
      rintro (he | hlt)
      · exact hne he
      · omega
    unfold extract_document_text
    rw [if_neg hcond]
    exact ⟨_, rfl⟩

/-- A 60-character document used by several witnesses. -/
def sampleLongText : String := String.mk (List.replicate 60 'a')

/-- Witness for C2: a too-short input fails, a 60-character input
succeeds. -/
theorem length_gate_witness :
    extract_document_text (some "hi") none =
        PipeResult.err (extractErrorPayload SourceType.text) ∧
      ∃ n, extract_document_text (some sampleLongText) none = PipeResult.ok n :=
  ⟨(length_gate (some "hi") none).1 (by decide),
   (length_gate (some sampleLongText) none).2 (by decide)⟩

/-- Filtering a conditional singleton whose element fails the test. -/
theorem filter_ite_single (p : RiskFinding → Bool) (c : Prop) [Decidable c]
    (x : RiskFinding) (hx : p x = false) :
    (if c then [x] else []).filter p = [] := by
  split <;> simp [hx]

/-- C3: when the Liability clause is absent, both the missing-critical
finding (whose description lists Liability) and the standalone
no-liability finding are emitted, each High, as separate single
entries, and each contributes 3: the raw score is 6 plus the other
three weights (the double count is preserved). -/
theorem liability_double_count (ci : ClauseInfo)
    (h : "Liability" ∉ presentTypes ci) :
    (∃ f ∈ (analyzeInfo ci).risks, f.type = "Missing Critical Clauses" ∧
       f.severity = "High" ∧ strContains "Liability" f.description = true) ∧
      (∃ f ∈ (analyzeInfo ci).risks, f.type = "No Liability Clause" ∧
        f.severity = "High") ∧
      ((analyzeInfo ci).risks.filter
        (fun f => f.type == "Missing Critical Clauses")).length = 1 ∧
      ((analyzeInfo ci).risks.filter
        (fun f => f.type == "No Liability Clause")).length = 1 ∧
      raw_risk_score ci = 6 + (partyTermW ci + finTermW ci + dateTermW ci) := by
  have hcontains : (presentTypes ci).contains "Liability" = false := by simp [h]
  have hm : "Liability" ∈ missingOf ci := by
    unfold missingOf
    refine List.mem_filter.mpr ⟨by simp [criticalClauses], ?_⟩
    simp [h]
  have hnil : (missingOf ci).isEmpty = false := by
    simp [List.isEmpty_iff, List.ne_nil_of_mem hm]
  have h1 : risk1L ci = [mccFinding ci] := by simp [risk1L, hnil]
  have h5 : risk5L ci = [noLiabFinding] := by simp [risk5L, hcontains, h]
  have hall : allRisksL ci ≠ [] := by
    unfold allRisksL
    rw [h1]
    simp
  have hrisks : (analyzeInfo ci).risks = allRisksL ci := by
    show risksOf ci = allRisksL ci
    unfold risksOf
    split
    · next hemp => exact absurd (List.isEmpty_iff.mp hemp) hall
    · rfl
  have hdesc : strContains "Liability" (mccFinding ci).description = true := by
    rcases mem_joinWith ", " "Liability" (missingOf ci) hm with ⟨s, t, hst⟩
    show containsSub "Liability".data
      ("The following critical clauses are missing: " ++
        joinWith ", " (missingOf ci)).data = true
    rw [String.data_append, hst]
    have hre : "The following critical clauses are missing: ".data ++
        (s ++ "Liability".data ++ t) =
        ("The following critical clauses are missing: ".data ++ s) ++
          "Liability".data ++ t := by
      simp
    rw [hre]
    exact containsSub_of_parts _ _ _
  have hmccmem : mccFinding ci ∈ (analyzeInfo ci).risks := by
    rw [hrisks]
    unfold allRisksL
    rw [h1]
    simp
  have hliabmem : noLiabFinding ∈ (analyzeInfo ci).risks := by
    rw [hrisks]
    unfold allRisksL
    rw [h5]
    simp
  refine ⟨⟨mccFinding ci, hmccmem, rfl, rfl, hdesc⟩,
    ⟨noLiabFinding, hliabmem, rfl, rfl⟩, ?_, ?_, ?_⟩
  · rw [hrisks]
    unfold allRisksL
    rw [h1, h5]
    simp only [List.filter_append, risk2L, risk3L, risk4L]
    rw [filter_ite_single _ _ unclearFinding (by decide),
      filter_ite_single _ _ noFinFinding (by decide),
      filter_ite_single _ _ noDatesFinding (by decide)]
    simp [mccFinding, noLiabFinding]
  · rw [hrisks]
    unfold allRisksL
    rw [h1, h5]
    simp only [List.filter_append, risk2L, risk3L, risk4L]
    rw [filter_ite_single _ _ unclearFinding (by decide),
      filter_ite_single _ _ noFinFinding (by decide),
      filter_ite_single _ _ noDatesFinding (by decide)]
    simp [mccFinding, noLiabFinding]
  · have hc3 : criticalTermW ci = 3 := by simp [criticalTermW, hnil]
    have hl3 : liabTermW ci = 3 := by simp [liabTermW, hcontains, h]
    unfold raw_risk_score
    rw [hc3, hl3]
    omega

/-- Every entry the clause detector produces carries the type of the
table row it came from. -/
theorem type_mem_of_mem_clauseMap (text : List Char)
    (l : List (String × List String)) (fl : ClauseFlag)
    (hfl : fl ∈ l.filterMap
      (fun p => (p.2.find? (kwHit text)).map (fun kw => ClauseFlag.mk p.1 kw true))) :
    fl.type ∈ l.map Prod.fst := by
  rcases List.mem_filterMap.mp hfl with ⟨a, ha, hfa⟩
  rcases Option.map_eq_some'.mp hfa with ⟨kw, hkw, hfl2⟩
  rw [← hfl2]
  exact List.mem_map.mpr ⟨a, ha, rfl⟩

/-- In a keyword table with distinct type names, the detector's entries
for one type are exactly the first hit of that type's keyword list. -/
theorem clauseEntries_of_nodup (text : List Char) :
    ∀ (l : List (String × List String)), (l.map Prod.fst).Nodup →
      ∀ ct kws, (ct, kws) ∈ l →
        ((l.filterMap
          (fun p => (p.2.find? (kwHit text)).map
            (fun kw => ClauseFlag.mk p.1 kw true))).filter
          (fun fl => fl.type == ct)) =
          ((kws.find? (kwHit text)).map (fun kw => ClauseFlag.mk ct kw true)).toList := by
  intro l
  induction l with
  | nil => intro _ ct kws hmem; cases hmem
  | cons a l ih =>
    intro hnd ct kws hmem
    have hndc : (a.1 :: l.map Prod.fst).Nodup := by simpa using hnd
    have hnd2 := List.nodup_cons.mp hndc
    have htail : ∀ fl ∈ l.filterMap
        (fun p => (p.2.find? (kwHit text)).map
          (fun kw => ClauseFlag.mk p.1 kw true)),
        fl.type ∈ l.map Prod.fst := fun fl hfl => type_mem_of_mem_clauseMap text l fl hfl
    rcases List.mem_cons.mp hmem with heq | hmem2
    · have ha1 : a.1 = ct := by rw [← heq]
      have ha2 : a.2 = kws := by rw [← heq]
      have hnotin : ct ∉ l.map Prod.fst := ha1 ▸ hnd2.1
      have htailnil : (l.filterMap
          (fun p => (p.2.find? (kwHit text)).map
            (fun kw => ClauseFlag.mk p.1 kw true))).filter
          (fun fl => fl.type == ct) = [] := by
        rw [List.filter_eq_nil_iff]
        intro fl hfl hp
        have hty : fl.type = ct := by simpa using hp
        exact hnotin (hty ▸ htail fl hfl)
      rw [List.filterMap_cons, ha1, ha2]
      cases hfd : kws.find? (kwHit text) with
      | none => simpa [hfd] using htailnil
      | some kw =>
        simp only [hfd, Option.map_some', List.filter_cons, Option.toList]
        rw [htailnil]
        simp
    · have hct : ct ∈ l.map Prod.fst := List.mem_map.mpr ⟨(ct, kws), hmem2, rfl⟩
      have hne : a.1 ≠ ct := fun hc => hnd2.1 (hc ▸ hct)
      rw [List.filterMap_cons]
      cases hfd : a.2.find? (kwHit text) with
      | none => exact ih hnd2.2 ct kws hmem2
      | some kw =>
        simp only [Option.map_some', List.filter_cons]
        have hpb : ((ClauseFlag.mk a.1 kw true).type == ct) = false := by
          simp [hne]
        rw [hpb]
        simp only [Bool.false_eq_true, if_false]
        exact ih hnd2.2 ct kws hmem2

/-- C4: for each of the nine clause types, when some keyword variant
occurs case-insensitively in the text the detector records exactly one
entry for that type, holding the first matching keyword of the type's
ordered variant list; when none occurs, no entry for that type exists. -/
theorem clause_detection (text : String) (ct : String) (kws : List String)
    (hmem : (ct, kws) ∈ clause_keywords) :
    ((∃ kw ∈ kws, kwHit text.data kw = true) →
       ∃ kw, kws.find? (kwHit text.data) = some kw ∧ kwHit text.data kw = true ∧
         (keyClausesOf text.data).filter (fun fl => fl.type == ct) = [⟨ct, kw, true⟩]) ∧
      ((∀ kw ∈ kws, kwHit text.data kw = false) →
        (keyClausesOf text.data).filter (fun fl => fl.type == ct) = []) := by
  have hnd : (clause_keywords.map Prod.fst).Nodup := by decide
  have hkey : (keyClausesOf text.data).filter (fun fl => fl.type == ct) =
      ((kws.find? (kwHit text.data)).map (fun kw => ClauseFlag.mk ct kw true)).toList :=
    clauseEntries_of_nodup text.data clause_keywords hnd ct kws hmem
  constructor
  · intro hex
    have hsome : (kws.find? (kwHit text.data)).isSome := List.find?_isSome.mpr hex
    rcases Option.isSome_iff_exists.mp hsome with ⟨kw, hkw⟩
    refine ⟨kw, hkw, List.find?_some hkw, ?_⟩
    rw [hkey, hkw]
    rfl
  · intro hall
    have hnone : kws.find? (kwHit text.data) = none := by
      rw [List.find?_eq_none]
      intro x hx
      simp [hall x hx]
    rw [hkey, hnone]
    rfl

/-- Witness for C4: the Termination keyword list on a hit and the
Liability list on a miss. -/
theorem clause_detection_witness :
    (∃ kw, ["termination", "terminate", "cancellation", "cancel agreement"].find?
        (kwHit "Notice of TERMINATION applies here".data) = some kw ∧
      kwHit "Notice of TERMINATION applies here".data kw = true ∧
      (keyClausesOf "Notice of TERMINATION applies here".data).filter
        (fun fl => fl.type == "Termination") = [⟨"Termination", kw, true⟩]) ∧
    (keyClausesOf "Notice of TERMINATION applies here".data).filter
      (fun fl => fl.type == "Liability") = [] :=
  ⟨(clause_detection "Notice of TERMINATION applies here" "Termination"
      ["termination", "terminate", "cancellation", "cancel agreement"]
      (by decide)).1 (by decide),
   (clause_detection "Notice of TERMINATION applies here" "Liability"
      ["liability", "indemnification", "indemnify", "hold harmless"]
      (by decide)).2 (by decide)⟩

/-- Successful extraction of a plain-text document with trimmed length
at least 50. -/
theorem extract_ok_text (t : String) (h50 : 50 ≤ (pyStrip t.data).length) :
    extract_document_text (some t) none = PipeResult.ok
      ⟨String.mk (cleanedOf t), countWords (cleanedOf t), (cleanedOf t).length,
       SourceType.text,
       "Document extracted and cleaned successfully from " ++
         sourceTypeUpper SourceType.text⟩ := by
  have ht : t ≠ "" := by
    intro he
    have h0 : (pyStrip ("" : String).data).length = 0 := by decide
    rw [he, h0] at h50
    omega
  have hep : effectivePair (some t) none = (t, SourceType.text) := by
    simp [effectivePair, ht]
  unfold extract_document_text
  rw [hep]
  rw [if_neg ?hcond]
  case hcond =>
    rintro (he | hlt)
    · exact ht he
    · have hlt2 : (pyStrip t.data).length < 50 := hlt
      omega

/-- `identify_key_clauses` on a success payload, as an equation. -/
theorem identify_key_clauses_ok_eq (n : NormalizedText) :
    identify_key_clauses (PipeResult.ok n) =
      if n.cleaned_text = "" then PipeResult.err ⟨noTextMessage, []⟩
      else PipeResult.ok (identifyInfo n) := rfl

/-- Successful clause identification after a successful extraction with
nonempty cleaned text. -/
theorem identify_ok (t : String) (h50 : 50 ≤ (pyStrip t.data).length)
    (hcl : cleanedOf t ≠ []) :
    identify_key_clauses (extract_document_text (some t) none) = PipeResult.ok
      (identifyInfo
        ⟨String.mk (cleanedOf t), countWords (cleanedOf t), (cleanedOf t).length,
         SourceType.text,
         "Document extracted and cleaned successfully from " ++
           sourceTypeUpper SourceType.text⟩) := by
  rw [extract_ok_text t h50, identify_key_clauses_ok_eq]
  rw [if_neg ?hne]
  case hne =>
    intro h
    exact hcl (by simpa using congrArg String.data h)

/-- C5 (amended): a zero-party document yields the sentinel placeholder
with a true raw count of 0 and the unclear-party risk fires, but the
obligation builder creates an obligation entry for the sentinel and the
comparator's party-count entry reports 1. -/
theorem sentinel_zero_parties (t : String)
    (h50 : 50 ≤ (pyStrip t.data).length)
    (hcl : cleanedOf t ≠ [])
    (hnp : findParties (cleanedOf t) = []) :
    ∃ ci, identify_key_clauses (extract_document_text (some t) none) =
        PipeResult.ok ci ∧
      ci.parties = [sentinelParty] ∧ ci.total_parties = 0 ∧
      partyTermW ci = 3 ∧ unclearFinding ∈ (analyzeInfo ci).risks ∧
      (analyzeInfo ci).obligations.length = 1 ∧
      (∀ o ∈ (analyzeInfo ci).obligations, o.party = sentinelParty) ∧
      partiesCountOfR (comparePipelineClauses t) = 1 := by
  have hid := identify_ok t h50 hcl
  set n : NormalizedText :=
    ⟨String.mk (cleanedOf t), countWords (cleanedOf t), (cleanedOf t).length,
     SourceType.text,
     "Document extracted and cleaned successfully from " ++
       sourceTypeUpper SourceType.text⟩ with hn
  have hpar : (identifyInfo n).parties = [sentinelParty] := by
    simp [identifyInfo, hnp]
  have htot : (identifyInfo n).total_parties = 0 := by
    simp [identifyInfo, hnp]
  have hu : unclearCond (identifyInfo n) = true := by
    unfold unclearCond
    rw [hpar]
    decide
  have hterm : partyTermW (identifyInfo n) = 3 := by
    unfold partyTermW
    simp [hu]
  have hobl : (analyzeInfo (identifyInfo n)).obligations =
      obligationsOf (identifyInfo n) := rfl
  have hob2 : obligationsOf (identifyInfo n) =
      [partyObligation (identifyInfo n) sentinelParty] := by
    unfold obligationsOf
    rw [hpar]
    rfl
  have hcount : partiesCountOfR (comparePipelineClauses t) = 1 := by
    unfold comparePipelineClauses comparePipelineExtraction
    rw [hid]
    show (identifyInfo n).parties.length = 1
    rw [hpar]
    rfl
  refine ⟨identifyInfo n, hid, hpar, htot, hterm, unclearFinding_mem _ hu, ?_, ?_, hcount⟩
  · rw [hobl, hob2]
    rfl
  · rw [hobl, hob2]
    intro o ho
    rcases List.mem_singleton.mp ho with rfl
    rfl

/-- A 77-character document in which the extractor finds no parties. -/
def zeroPartyText : String :=
  "the services shall be performed with reasonable care and skill at all times."

/-- The extraction result of `zeroPartyText`. -/
def zeroPartyClause : ClauseInfo :=
  ⟨"General Contract/Agreement", [sentinelParty], [], [], [], 0, 0, 0,
   "Key clauses identified successfully"⟩

/-- Witness for C5 at the concrete zero-party document. -/
theorem sentinel_zero_parties_witness :
    ∃ ci, identify_key_clauses (extract_document_text (some zeroPartyText) none) =
        PipeResult.ok ci ∧
      ci.parties = [sentinelParty] ∧ ci.total_parties = 0 ∧
      partyTermW ci = 3 ∧ unclearFinding ∈ (analyzeInfo ci).risks ∧
      (analyzeInfo ci).obligations.length = 1 ∧
      (∀ o ∈ (analyzeInfo ci).obligations, o.party = sentinelParty) ∧
      partiesCountOfR (comparePipelineClauses zeroPartyText) = 1 :=
  sentinel_zero_parties zeroPartyText (by decide) (by decide) (by decide)

/-- Counterexample to C5 as stated: on a zero-party document the raw
count is 0, yet the obligation builder emits an obligation entry for
the sentinel and the comparator's party-count entry reports 1. -/
theorem sentinel_zero_parties_cex :
    identify_key_clauses (extract_document_text (some zeroPartyText) none) =
        PipeResult.ok zeroPartyClause ∧
      zeroPartyClause.total_parties = 0 ∧
      (analyzeInfo zeroPartyClause).obligations =
        [⟨sentinelParty, ["Obligations to be reviewed in detail within the document"]⟩] ∧
      partiesCountOfR (comparePipelineClauses zeroPartyText) = 1 :=
  ⟨by decide, by decide, by decide, by decide⟩

/-- `compare_two_documents` on six successful stages renders the
comparison report. -/
theorem compare_eq_report (da db : String) (ea : NormalizedText) (ca : ClauseInfo)
    (ra : RiskAssessment) (eb : NormalizedText) (cb : ClauseInfo) (rb : RiskAssessment)
    (h1 : comparePipelineExtraction da = PipeResult.ok ea)
    (h2 : identify_key_clauses (PipeResult.ok ea) = PipeResult.ok ca)
    (h3 : analyze_risks_and_obligations (PipeResult.ok ca) = PipeResult.ok ra)
    (h4 : comparePipelineExtraction db = PipeResult.ok eb)
    (h5 : identify_key_clauses (PipeResult.ok eb) = PipeResult.ok cb)
    (h6 : analyze_risks_and_obligations (PipeResult.ok cb) = PipeResult.ok rb) :
    compare_two_documents da db = compareReport ea ca ra eb cb rb := by
  unfold compare_two_documents
  simp only [h1, h2, h3, h4, h5, h6]

/-- The clause-type set difference of equal sides is empty. -/
theorem onlySetL_self (l : List String) : onlySetL l l = [] := by
  unfold onlySetL
  rw [List.filter_eq_nil_iff]
  intro x hx
  simp [hx]

/-- With equal scores the risk comparison renders the tie statement. -/
theorem riskCmpSection_self (s : Nat) :
    riskCmpSection s s =
      "‚öñÔ∏è  RISK LEVEL COMPARISON\n" ++ dash90 ++ "\n" ++
        ("‚öñÔ∏è  Both documents have EQUAL risk (Score: " ++ toString s ++ "/10)\n") ++
        "\n" := by
  unfold riskCmpSection
  rw [if_neg (Nat.lt_irrefl s), if_neg (Nat.lt_irrefl s)]

/-- Any substring of the risk-comparison section occurs in the full
comparison report. -/
theorem strContains_compareReport (needle : String) (ea : NormalizedText)
    (ca : ClauseInfo) (ra : RiskAssessment) (eb : NormalizedText) (cb : ClauseInfo)
    (rb : RiskAssessment)
    (h : strContains needle (riskCmpSection ra.risk_score rb.risk_score) = true) :
    strContains needle (compareReport ea ca ra eb cb rb) = true := by
  unfold compareReport
  exact strContains_append_right _ (strContains_append_left _ h)

/-- The tie statement of equal clamped scores never shows a LOWER-risk
winner. -/
theorem lower_not_in_tie (s : Nat) (hs : s ≤ 10) :
    strContains "LOWER risk" (riskCmpSection s s) = false := by
  interval_cases s <;> decide

/-- C9 (amended): comparing two identical documents that pass validation
and clean to nonempty text uses one shared pipeline result for both
sides (hence equal scores and identical document-type and party-count
entries), empty only-in-A and only-in-B clause sets, the EQUAL-risk tie
statement, and no LOWER-risk winner. -/
theorem compare_identical (t : String)
    (h50 : 50 ≤ (pyStrip t.data).length) (hcl : cleanedOf t ≠ []) :
    ∃ n ci r,
      comparePipelineExtraction t = PipeResult.ok n ∧
      identify_key_clauses (PipeResult.ok n) = PipeResult.ok ci ∧
      analyze_risks_and_obligations (PipeResult.ok ci) = PipeResult.ok r ∧
      compare_two_documents t t = compareReport n ci r n ci r ∧
      onlySetL (presentTypes ci) (presentTypes ci) = [] ∧
      strContains "EQUAL risk" (compare_two_documents t t) = true ∧
      strContains "LOWER risk" (riskCmpSection r.risk_score r.risk_score) = false := by
  have hext : comparePipelineExtraction t = PipeResult.ok
      ⟨String.mk (cleanedOf t), countWords (cleanedOf t), (cleanedOf t).length,
       SourceType.text,
       "Document extracted and cleaned successfully from " ++
         sourceTypeUpper SourceType.text⟩ := by
    unfold comparePipelineExtraction
    exact extract_ok_text t h50
  set n : NormalizedText :=
    ⟨String.mk (cleanedOf t), countWords (cleanedOf t), (cleanedOf t).length,
     SourceType.text,
     "Document extracted and cleaned successfully from " ++
       sourceTypeUpper SourceType.text⟩ with hn
  have hidn : identify_key_clauses (PipeResult.ok n) =
      PipeResult.ok (identifyInfo n) := by
    rw [identify_key_clauses_ok_eq]
    rw [if_neg ?hne]
    case hne =>
      intro h
      exact hcl (by simpa using congrArg String.data h)
  have han : analyze_risks_and_obligations (PipeResult.ok (identifyInfo n)) =
      PipeResult.ok (analyzeInfo (identifyInfo n)) := rfl
  have hcmp := compare_eq_report t t n (identifyInfo n) (analyzeInfo (identifyInfo n))
    n (identifyInfo n) (analyzeInfo (identifyInfo n)) hext hidn han hext hidn han
  have hscore : (analyzeInfo (identifyInfo n)).risk_score ≤ 10 :=
    Nat.min_le_right _ _
  have htie : strContains "EQUAL risk"
      (riskCmpSection (analyzeInfo (identifyInfo n)).risk_score
        (analyzeInfo (identifyInfo n)).risk_score) = true := by
    rw [riskCmpSection_self]
    have hlit : strContains "EQUAL risk"
        ("‚öñÔ∏è  Both documents have EQUAL risk (Score: " : String) = true := by
      decide
    exact strContains_append_left _
      (strContains_append_right _
        (strContains_append_left _ (strContains_append_left _ hlit)))
  refine ⟨n, identifyInfo n, analyzeInfo (identifyInfo n), hext, hidn, han, hcmp,
    onlySetL_self _, ?_, lower_not_in_tie _ hscore⟩
  rw [hcmp]
  exact strContains_compareReport _ _ _ _ _ _ _ htie

/-- Witness for C9 at a concrete 60-character document. -/
theorem compare_identical_witness :
    ∃ n ci r,
      comparePipelineExtraction sampleLongText = PipeResult.ok n ∧
      identify_key_clauses (PipeResult.ok n) = PipeResult.ok ci ∧
      analyze_risks_and_obligations (PipeResult.ok ci) = PipeResult.ok r ∧
      compare_two_documents sampleLongText sampleLongText = compareReport n ci r n ci r ∧
      onlySetL (presentTypes ci) (presentTypes ci) = [] ∧
      strContains "EQUAL risk"
        (compare_two_documents sampleLongText sampleLongText) = true ∧
      strContains "LOWER risk" (riskCmpSection r.risk_score r.risk_score) = false :=
  compare_identical sampleLongText (by decide) (by decide)

/-- A 50-control-character document: it passes the length gate but its
cleaned text is empty. -/
def ctrlText : String := String.mk (List.replicate 50 (Char.ofNat 1))

/-- Counterexample to C9 as stated: a document long enough to pass
validation for which the comparison of two identical copies is a
downstream error line without the EQUAL-risk tie statement. -/
theorem compare_identical_cex :
    50 ≤ (pyStrip ctrlText.data).length ∧
      strContains "EQUAL risk" (compare_two_documents ctrlText ctrlText) = false :=
  ⟨by decide, by decide⟩

/-- The head of a `dropWhile` never satisfies the dropped predicate. -/
theorem head_dropWhile_false (p : Char → Bool) (l : List Char) (c : Char)
    (h : (l.dropWhile p).head? = some c) : p c = false := by
  induction l with
  | nil => cases h
  | cons a as ih =>
    rw [List.dropWhile_cons] at h
    split at h
    · exact ih h
    · next hpa =>
      rw [List.head?_cons, Option.some.injEq] at h
      subst h
      exact Bool.eq_false_iff.mpr hpa

/-- `pyStrip l` is a leading segment of `l.dropWhile pyIsSpace`. -/
theorem pyStrip_decomp (l : List Char) :
    ∃ k, l.dropWhile pyIsSpace = pyStrip l ++ k := by
  refine ⟨((l.dropWhile pyIsSpace).reverse.takeWhile pyIsSpace).reverse, ?_⟩
  unfold pyStrip
  have h := List.takeWhile_append_dropWhile pyIsSpace (l.dropWhile pyIsSpace).reverse
  calc l.dropWhile pyIsSpace
      = (l.dropWhile pyIsSpace).reverse.reverse := (List.reverse_reverse _).symm
    _ = ((l.dropWhile pyIsSpace).reverse.takeWhile pyIsSpace ++
          (l.dropWhile pyIsSpace).reverse.dropWhile pyIsSpace).reverse := by rw [h]
    _ = _ := by rw [List.reverse_append]

/-- The first character of a stripped string is not whitespace. -/
theorem pyStrip_head (l : List Char) (c : Char)
    (h : (pyStrip l).head? = some c) : pyIsSpace c = false := by
  rcases pyStrip_decomp l with ⟨k, hk⟩
  apply head_dropWhile_false pyIsSpace l c
  rw [hk]
  cases hs : pyStrip l with
  | nil => rw [hs] at h; cases h
  | cons a as =>
    rw [hs] at h
    rw [List.head?_cons, Option.some.injEq] at h
    subst h
    rfl

/-- The last character of a stripped string is not whitespace. -/
theorem pyStrip_last (l : List Char) (c : Char)
    (h : (pyStrip l).getLast? = some c) : pyIsSpace c = false := by
  unfold pyStrip at h
  rw [List.getLast?_reverse] at h
  exact head_dropWhile_false pyIsSpace _ c h

/-- A string whose ends are not whitespace is unchanged by `pyStrip`. -/
theorem pyStrip_eq_self (l : List Char)
    (hh : ∀ c, l.head? = some c → pyIsSpace c = false)
    (hl : ∀ c, l.getLast? = some c → pyIsSpace c = false) :
    pyStrip l = l := by
  have h1 : l.dropWhile pyIsSpace = l := by
    cases l with
    | nil => rfl
    | cons a as =>
      rw [List.dropWhile_cons, if_neg]
      rw [hh a List.head?_cons]
      simp
  unfold pyStrip
  rw [h1]
  have h2 : l.reverse.dropWhile pyIsSpace = l.reverse := by
    cases hr : l.reverse with
    | nil => rfl
    | cons d ds =>
      rw [List.dropWhile_cons, if_neg]
      have hd : l.getLast? = some d := by
        rw [← List.head?_reverse, hr, List.head?_cons]
      rw [hl d hd]
      simp
  rw [h2, List.reverse_reverse]

/-- Step equation of the collapser on a cons cell. -/
theorem collapseGo_cons (b : Bool) (c : Char) (rest : List Char) :
    collapseGo b (c :: rest) =
      if pyIsSpace c then
        (if b then collapseGo true rest else ' ' :: collapseGo true rest)
      else c :: collapseGo false rest := rfl

/-- Characters of a collapsed string come from the source or are the
space substituted for a run. -/
theorem mem_collapseGo (x : Char) :
    ∀ (l : List Char) (b : Bool), x ∈ collapseGo b l → x ∈ l ∨ x = ' ' := by
  intro l
  induction l with
  | nil => intro b h; cases h
  | cons c rest ih =>
    intro b h
    unfold collapseGo at h
    split at h
    · split at h
      · rcases ih true h with h2 | h2
        · exact Or.inl (List.mem_cons_of_mem _ h2)
        · exact Or.inr h2
      · rcases List.mem_cons.mp h with rfl | h2
        · exact Or.inr rfl
        · rcases ih true h2 with h3 | h3
          · exact Or.inl (List.mem_cons_of_mem _ h3)
          · exact Or.inr h3
    · rcases List.mem_cons.mp h with rfl | h2
      · exact Or.inl (List.mem_cons_self _ _)
      · rcases ih false h2 with h3 | h3
        · exact Or.inl (List.mem_cons_of_mem _ h3)
        · exact Or.inr h3

/-- Characters survive `pyStrip`. -/
theorem mem_pyStrip (x : Char) (l : List Char) (h : x ∈ pyStrip l) : x ∈ l := by
  unfold pyStrip at h
  rw [List.mem_reverse] at h
  have h2 := (List.dropWhile_sublist pyIsSpace).subset h
  rw [List.mem_reverse] at h2
  exact (List.dropWhile_sublist pyIsSpace).subset h2

/-- A control-free string is unchanged by `removeCtrl`. -/
theorem removeCtrl_eq_self (l : List Char)
    (h : ∀ x ∈ l, isCtrlChar x = false) : removeCtrl l = l := by
  unfold removeCtrl
  rw [List.filter_eq_self]
  intro a ha
  rw [h a ha]
  rfl

/-- `removeCtrl` is idempotent. -/
theorem removeCtrl_removeCtrl (l : List Char) :
    removeCtrl (removeCtrl l) = removeCtrl l := by
  unfold removeCtrl
  rw [List.filter_filter]
  simp

/-- A whitespace character in collapsed normal form must be the plain
space. -/
def okWsChar (c : Char) : Bool := !pyIsSpace c || c == ' '

/-- Collapsed normal form: only plain spaces as whitespace and no two
adjacent whitespace characters. -/
def noRuns : List Char → Bool
  | [] => true
  | [c] => okWsChar c
  | c :: d :: rest => okWsChar c && !(pyIsSpace c && pyIsSpace d) && noRuns (d :: rest)

/-- Build `noRuns` for a cons cell. -/
theorem noRuns_cons (c : Char) (l : List Char) (hok : okWsChar c = true)
    (hnr : noRuns l = true)
    (hdj : ∀ d, l.head? = some d → (pyIsSpace c && pyIsSpace d) = false) :
    noRuns (c :: l) = true := by
  cases l with
  | nil => exact hok
  | cons d ds =>
    show (okWsChar c && !(pyIsSpace c && pyIsSpace d) && noRuns (d :: ds)) = true
    rw [hok, hnr, hdj d List.head?_cons]
    rfl

/-- Destruct `noRuns` of a cons cell. -/
theorem noRuns_cons_elim (c : Char) (l : List Char)
    (h : noRuns (c :: l) = true) :
    okWsChar c = true ∧ noRuns l = true ∧
      (∀ d, l.head? = some d → (pyIsSpace c && pyIsSpace d) = false) := by
  cases l with
  | nil =>
    refine ⟨h, rfl, ?_⟩
    intro d hd
    cases hd
  | cons d ds =>
    have h2 : (okWsChar c && !(pyIsSpace c && pyIsSpace d) && noRuns (d :: ds)) = true := h
    simp only [Bool.and_eq_true, Bool.not_eq_true'] at h2
    refine ⟨h2.1.1, h2.2, ?_⟩
    intro e he
    rw [List.head?_cons, Option.some.injEq] at he
    subst he
    exact h2.1.2

/-- Output of the collapser is in collapsed normal form, and in
skip-mode it never begins with whitespace. -/
theorem collapse_noRuns (l : List Char) :
    noRuns (collapseGo false l) = true ∧ noRuns (collapseGo true l) = true ∧
      (∀ c, (collapseGo true l).head? = some c → pyIsSpace c = false) := by
  induction l with
  | nil => exact ⟨rfl, rfl, fun c h => by cases h⟩
  | cons c rest ih =>
    rcases ih with ⟨ih1, ih2, ih3⟩
    by_cases hsp : pyIsSpace c
    · have hfalse : collapseGo false (c :: rest) = ' ' :: collapseGo true rest := by
        rw [collapseGo_cons, if_pos hsp, if_neg (by simp)]
      have htrue : collapseGo true (c :: rest) = collapseGo true rest := by
        rw [collapseGo_cons, if_pos hsp, if_pos rfl]
      refine ⟨?_, htrue ▸ ih2, htrue ▸ ih3⟩
      rw [hfalse]
      refine noRuns_cons _ _ (by decide) ih2 ?_
      intro d hd
      rw [ih3 d hd]
      simp
    · have hspf : pyIsSpace c = false := Bool.eq_false_iff.mpr hsp
      have hfalse : collapseGo false (c :: rest) = c :: collapseGo false rest := by
        rw [collapseGo_cons, if_neg hsp]
      have htrue : collapseGo true (c :: rest) = c :: collapseGo false rest := by
        rw [collapseGo_cons, if_neg hsp]
      have hcons : noRuns (c :: collapseGo false rest) = true := by
        refine noRuns_cons _ _ (by simp [okWsChar, hspf]) ih1 ?_
        intro d _
        rw [hspf]
        rfl
      refine ⟨hfalse ▸ hcons, htrue ▸ hcons, ?_⟩
      intro e he
      rw [htrue, List.head?_cons, Option.some.injEq] at he
      subst he
      exact hspf

/-- Collapsing is the identity on collapsed normal forms. -/
theorem collapse_id (l : List Char) (h : noRuns l = true) :
    collapseGo false l = l := by
  induction l with
  | nil => rfl
  | cons c rest ih =>
    rcases noRuns_cons_elim c rest h with ⟨hok, hnr, hdj⟩
    by_cases hsp : pyIsSpace c
    · have hc : c = ' ' := by
        unfold okWsChar at hok
        rw [hsp] at hok
        simpa using hok
      subst hc
      have hstep : collapseGo false (' ' :: rest) = ' ' :: collapseGo true rest := by
        rw [collapseGo_cons, if_pos hsp, if_neg (by simp)]
      rw [hstep]
      cases rest with
      | nil => rfl
      | cons d ds =>
        have hd : pyIsSpace d = false := by
          have := hdj d List.head?_cons
          rw [hsp] at this
          simpa using this
        have h1 : collapseGo true (d :: ds) = d :: collapseGo false ds := by
          rw [collapseGo_cons, if_neg (by simp [hd])]
        have h2 : collapseGo false (d :: ds) = d :: collapseGo false ds := by
          rw [collapseGo_cons, if_neg (by simp [hd])]
        rw [h1, ← h2, ih hnr]
    · have hstep : collapseGo false (c :: rest) = c :: collapseGo false rest := by
        rw [collapseGo_cons, if_neg hsp]
      rw [hstep, ih hnr]

/-- An all-skipped collapse means the input was all whitespace. -/
theorem collapseGo_true_nil (l : List Char) (h : collapseGo true l = []) :
    ∀ x ∈ l, pyIsSpace x = true := by
  induction l with
  | nil => intro x hx; cases hx
  | cons c rest ih =>
    unfold collapseGo at h
    split at h
    · next hsp =>
      rw [if_pos rfl] at h
      intro x hx
      rcases List.mem_cons.mp hx with rfl | hx2
      · exact hsp
      · exact ih h x hx2
    · cases h

/-- A non-skip collapse is empty only on empty input. -/
theorem collapseGo_false_nil (l : List Char) (h : collapseGo false l = []) :
    l = [] := by
  cases l with
  | nil => rfl
  | cons c rest =>
    unfold collapseGo at h
    split at h
    · rw [if_neg (by simp)] at h
      cases h
    · cases h

/-- A nonempty list has a last element. -/
theorem getLast_exists_of_ne_nil (l : List Char) (h : l ≠ []) :
    ∃ d, l.getLast? = some d := by
  cases hl : l.getLast? with
  | none => exact absurd (List.getLast?_eq_none_iff.mp hl) h
  | some d => exact ⟨d, rfl⟩

/-- The last element of a cons cell with nonempty tail. -/
theorem getLast_cons_of_ne_nil (a : Char) (rest : List Char) (h : rest ≠ []) :
    (a :: rest).getLast? = rest.getLast? := by
  cases rest with
  | nil => exact absurd rfl h
  | cons e es => exact List.getLast?_cons_cons

/-- The collapser preserves a non-whitespace final character. -/
theorem collapse_getLast :
    ∀ (l : List Char) (b : Bool),
      (∀ c, l.getLast? = some c → pyIsSpace c = false) →
      ∀ c, (collapseGo b l).getLast? = some c → pyIsSpace c = false := by
  intro l
  induction l with
  | nil =>
    intro b _ c hc
    cases hc
  | cons a rest ih =>
    intro b hlast c hc
    by_cases hrest : rest = []
    · subst hrest
      have ha := hlast a (List.getLast?_singleton a)
      by_cases hsp : pyIsSpace a
      · exact absurd hsp (by simp [ha])
      · rw [collapseGo_cons, if_neg hsp,
          show collapseGo false [] = [] from rfl,
          List.getLast?_singleton, Option.some.injEq] at hc
        subst hc
        exact ha
    · have htr : ∀ d, rest.getLast? = some d → pyIsSpace d = false := by
        intro d hd
        apply hlast d
        rw [getLast_cons_of_ne_nil a rest hrest, hd]
      by_cases hsp : pyIsSpace a
      · cases b with
        | true =>
          rw [collapseGo_cons, if_pos hsp, if_pos rfl] at hc
          exact ih true htr c hc
        | false =>
          rw [collapseGo_cons, if_pos hsp, if_neg (by simp)] at hc
          cases hout : collapseGo true rest with
          | nil =>
            rw [hout, List.getLast?_singleton, Option.some.injEq] at hc
            subst hc
            exfalso
            have hallsp := collapseGo_true_nil rest hout
            rcases getLast_exists_of_ne_nil rest hrest with ⟨d, hd⟩
            have h1 := htr d hd
            have h2 := hallsp d (List.mem_of_mem_getLast? hd)
            rw [h1] at h2
            cases h2
          | cons y ys =>
            rw [hout, List.getLast?_cons_cons] at hc
            apply ih true htr c
            rw [hout]
            exact hc
      · have hstep : collapseGo b (a :: rest) = a :: collapseGo false rest := by
          cases b <;> rw [collapseGo_cons, if_neg hsp]
        rw [hstep] at hc
        cases hout : collapseGo false rest with
        | nil => exact absurd (collapseGo_false_nil rest hout) hrest
        | cons y ys =>
          rw [hout, List.getLast?_cons_cons] at hc
          apply ih false htr c
          rw [hout]
          exact hc

/-- C6 (amended): for a control-character-free document on which
extraction succeeds with cleaned text of length at least 50, running
the extractor again on its own output succeeds and returns the very
same result. -/
theorem normalize_idempotent (t : String)
    (hnc : ∀ c ∈ t.data, isCtrlChar c = false)
    (n : NormalizedText)
    (hok : extract_document_text (some t) none = PipeResult.ok n)
    (h50 : 50 ≤ n.cleaned_text.length) :
    extract_document_text (some n.cleaned_text) none = PipeResult.ok n := by
  have h50t : 50 ≤ (pyStrip t.data).length := by
    by_contra hlt
    push_neg at hlt
    by_cases ht : t = ""
    · have herr := extract_err_short (some t) none (by subst ht; decide)
      rw [herr] at hok
      cases hok
    · have hep : effectivePair (some t) none = (t, SourceType.text) := by
        simp [effectivePair, ht]
      have herr := extract_err_short (some t) none (by rw [hep]; exact hlt)
      rw [herr] at hok
      cases hok
  have hshape := extract_ok_text t h50t
  rw [hshape] at hok
  simp only [PipeResult.ok.injEq] at hok
  subst hok
  have hlen : 50 ≤ (cleanedOf t).length := h50
  have hcc : ∀ x ∈ collapseWs (pyStrip t.data), isCtrlChar x = false := by
    intro x hx
    rcases mem_collapseGo x (pyStrip t.data) false hx with hx2 | rfl
    · exact hnc x (mem_pyStrip x t.data hx2)
    · decide
  have hrc : cleanedOf t = collapseWs (pyStrip t.data) := by
    show removeCtrl (collapseWs (pyStrip t.data)) = _
    exact removeCtrl_eq_self _ hcc
  have hnr : noRuns (cleanedOf t) = true := by
    rw [hrc]
    exact (collapse_noRuns (pyStrip t.data)).1
  have hcoll : collapseWs (cleanedOf t) = cleanedOf t := collapse_id _ hnr
  have hhead : ∀ x, (cleanedOf t).head? = some x → pyIsSpace x = false := by
    intro x hx
    rw [hrc] at hx
    cases hps : pyStrip t.data with
    | nil =>
      rw [hps] at hx
      cases hx
    | cons c0 cs =>
      have hc0 : pyIsSpace c0 = false :=
        pyStrip_head t.data c0 (by rw [hps]; exact List.head?_cons)
      rw [hps] at hx
      unfold collapseWs at hx
      rw [collapseGo_cons, if_neg (by simp [hc0]), List.head?_cons,
        Option.some.injEq] at hx
      subst hx
      exact hc0
  have hlast : ∀ x, (cleanedOf t).getLast? = some x → pyIsSpace x = false := by
    intro x hx
    rw [hrc] at hx
    exact collapse_getLast (pyStrip t.data) false
      (fun c hc => pyStrip_last t.data c hc) x hx
  have hstrip : pyStrip (cleanedOf t) = cleanedOf t :=
    pyStrip_eq_self _ hhead hlast
  have hctrl2 : removeCtrl (cleanedOf t) = cleanedOf t := by
    show removeCtrl (removeCtrl (collapseWs (pyStrip t.data))) =
      removeCtrl (collapseWs (pyStrip t.data))
    exact removeCtrl_removeCtrl _
  have hclean2 : cleanedOf (String.mk (cleanedOf t)) = cleanedOf t := by
    show removeCtrl (collapseWs (pyStrip (String.mk (cleanedOf t)).data)) = _
    rw [show (String.mk (cleanedOf t)).data = cleanedOf t from rfl, hstrip, hcoll,
      hctrl2]
  have h50c : 50 ≤ (pyStrip (String.mk (cleanedOf t)).data).length := by
    rw [show (String.mk (cleanedOf t)).data = cleanedOf t from rfl, hstrip]
    exact hlen
  have hres := extract_ok_text (String.mk (cleanedOf t)) h50c
  rw [hres, hclean2]

/-- The normalized form of `sampleLongText`. -/
def sampleLongNormalized : NormalizedText :=
  ⟨sampleLongText, 1, 60, SourceType.text,
   "Document extracted and cleaned successfully from TEXT"⟩

/-- Witness for C6 at a 60-character control-free document. -/
theorem normalize_idempotent_witness :
    extract_document_text (some sampleLongNormalized.cleaned_text) none =
      PipeResult.ok sampleLongNormalized :=
  normalize_idempotent sampleLongText (by decide) sampleLongNormalized
    (by decide) (by decide)

/-- A valid document whose control character sits between two spaces. -/
def wsCtrlText : String := "a \x01 b" ++ String.mk (List.replicate 50 'x')

/-- The first normalization of `wsCtrlText`: removing the control
character leaves two adjacent spaces. -/
def wsCtrlNorm : NormalizedText :=
  ⟨"a  b" ++ String.mk (List.replicate 50 'x'), 2, 54, SourceType.text,
   "Document extracted and cleaned successfully from TEXT"⟩

/-- A 50-character document of which 48 characters are control
characters. -/
def ctrlHeavyText : String := "ab" ++ String.mk (List.replicate 48 (Char.ofNat 1))

/-- The first normalization of `ctrlHeavyText`: only two characters
survive cleaning. -/
def ctrlHeavyNorm : NormalizedText :=
  ⟨"ab", 1, 2, SourceType.text,
   "Document extracted and cleaned successfully from TEXT"⟩

/-- Counterexample to C6 as stated: re-normalizing a successful output
can collapse further whitespace (control-character removal joined two
spaces), and can even fail the length gate. -/
theorem normalize_idempotent_cex :
    (extract_document_text (some wsCtrlText) none = PipeResult.ok wsCtrlNorm ∧
      extract_document_text (some wsCtrlNorm.cleaned_text) none ≠
        PipeResult.ok wsCtrlNorm) ∧
      (extract_document_text (some ctrlHeavyText) none = PipeResult.ok ctrlHeavyNorm ∧
        extract_document_text (some ctrlHeavyNorm.cleaned_text) none =
          PipeResult.err (extractErrorPayload SourceType.text)) :=
  ⟨⟨by decide, by decide⟩, ⟨by decide, by decide⟩⟩

/-- Witness for C3 at a concrete extraction result with no clauses. -/
theorem liability_double_count_witness :
    (∃ f ∈ (analyzeInfo sampleClause).risks, f.type = "Missing Critical Clauses" ∧
       f.severity = "High" ∧ strContains "Liability" f.description = true) ∧
      (∃ f ∈ (analyzeInfo sampleClause).risks, f.type = "No Liability Clause" ∧
        f.severity = "High") ∧
      ((analyzeInfo sampleClause).risks.filter
        (fun f => f.type == "Missing Critical Clauses")).length = 1 ∧
      ((analyzeInfo sampleClause).risks.filter
        (fun f => f.type == "No Liability Clause")).length = 1 ∧
      raw_risk_score sampleClause =
        6 + (partyTermW sampleClause + finTermW sampleClause + dateTermW sampleClause) :=
  liability_double_count sampleClause (by decide)

end LegalAnalyzer
